import Mathlib

/-!
Shallow embedding of the kgateway listener-merging and filter-chain
translation engine (`internal/kgateway/translator/listener/gateway_listener_translator.go`).

Modelling conventions:
* Go strings are Lean `String`; ports (`gwv1.PortNumber`, int32, always positive
  here) are `Nat`; `gwv1.ProtocolType` is a plain `String`, as in Go.
* Reporter interfaces (`reports.Reporter`, `reports.ListenerReporter`,
  `reports.ParentRefReporter`) are identified by `String` keys; the condition
  side effects they receive are collected into an explicit `Event` list that
  translation functions return alongside their value.
* External collaborators that are not part of this repository slice
  (`query.GetSecretForRef`, `sslutils.ValidateTlsSecretData`,
  `route.TranslateGatewayHTTPRouteRules`, the `routeutils` route total order)
  are modelled as data or as function-valued parameters, per the spec's
  description of the external interfaces.
* Go `map` accumulation (`routesByHost`, `virtualHostNames`) is modelled by
  insertion-ordered association lists; the unspecified iteration order of a Go
  map is made explicit by the `...With` variants of the translation functions,
  which take the list of map entries (in some order) as an argument. The
  insertion order is used as the canonical representative elsewhere.
-/

set_option maxHeartbeats 1000000

namespace KGatewayListener

/-! ### Reporter vocabulary (Gateway-API conditions) -/

inductive CondType where
  | Programmed
  | ResolvedRefs
  | Accepted
deriving DecidableEq

inductive CondReason where
  | Invalid
  | RefNotPermitted
  | InvalidCertificateRef
  | UnsupportedValue
  | ReasonAccepted
deriving DecidableEq

/-- One Gateway-API status condition; `statusTrue` is the metav1 condition status. -/
structure Condition where
  condType : CondType
  statusTrue : Bool
  reason : CondReason
  message : String
deriving DecidableEq

/-- One reporter side effect observed during translation. `listenerCond` is
`ListenerReporter.SetCondition`, `routeCond` is
`reporter.Route(obj).ParentRef(ref).SetCondition`, and `backendErr` is
`query.ProcessBackendError` (an external collaborator, recorded abstractly). -/
inductive Event where
  | listenerCond (reporter : String) (cond : Condition)
  | routeCond (routeKey : String) (parentRef : String) (cond : Condition)
  | backendErr (routeKey : String) (parentRef : String) (msg : String)
deriving DecidableEq

def Event.isListenerCond : Event → Bool
  | .listenerCond _ _ => true
  | _ => false

/-! ### TLS configuration and listener snapshot -/

inductive TLSMode where
  | Terminate
  | Passthrough
deriving DecidableEq

/-- Gateway-API `ListenerTLSConfig`: optional mode plus certificate refs
(each ref abstracted to a key understood by the secret resolver). -/
structure TLSConfig where
  mode : Option TLSMode
  certificateRefs : List String
deriving DecidableEq

/-- Immutable snapshot of one Gateway-API listener (`ir.Listener`). `parent` is
the owning Gateway/ListenerSet reference, `attachedPolicies` and
`policyAncestorRef` are carried opaquely. -/
structure GwListener where
  name : String
  parent : String
  port : Nat
  protocol : String
  hostname : Option String
  tlsConfig : Option TLSConfig
  attachedPolicies : String
  policyAncestorRef : String
deriving DecidableEq

/-- Zero value of `ir.Listener`, as produced by Go's `var listenerRef ir.Listener`. -/
def GwListener.zero : GwListener :=
  { name := "", parent := "", port := 0, protocol := "", hostname := none,
    tlsConfig := none, attachedPolicies := "", policyAncestorRef := "" }

/-! ### Routes -/

/-- One backend reference of a TCP/TLS route after resolution
(`ir.BackendRefIR`): cluster name, optional resolution error, and whether the
backend object was found. -/
structure BackendRef where
  clusterName : String
  err : Option String
  hasObject : Bool
deriving DecidableEq

/-- Payload shared by `ir.TcpRouteIR` and `ir.TlsRouteIR`: source-object key for
status reporting, creation timestamp (Nat-encoded), parent refs, the number of
rules declared by the source object, and the resolved backends. -/
structure TcpRouteData where
  name : String
  namespaceName : String
  routeKey : String
  creationTime : Nat
  parentRefs : List String
  rulesCount : Nat
  backends : List BackendRef
deriving DecidableEq

/-- The route object held by a `query.RouteInfo` (`ir.Route` interface).
For HTTP routes the output of the external collaborator
`route.TranslateGatewayHTTPRouteRules` is carried as data
(`translatedRules`, rules abstracted to `Nat` ordered by the delegated
`routeutils` total order); TCP/TLS routes carry `TcpRouteData`. -/
inductive RouteObj where
  | http (creationTime : Nat) (hostnames : List String) (translatedRules : List Nat)
  | tcpRoute (d : TcpRouteData)
  | tlsRoute (d : TcpRouteData)
deriving DecidableEq

def RouteObj.creationTime : RouteObj → Nat
  | .http t _ _ => t
  | .tcpRoute d => d.creationTime
  | .tlsRoute d => d.creationTime

def RouteObj.hostnames : RouteObj → List String
  | .http _ hs _ => hs
  | _ => []

def RouteObj.translatedRules : RouteObj → List Nat
  | .http _ _ rs => rs
  | _ => []

/-- `query.RouteInfo`: a route object bound under one specific parent ref. -/
structure RouteInfo where
  routeKey : String
  parentRef : String
  object : RouteObj
deriving DecidableEq

/-! ### Name generation -/

/-- Modelled from the spec: `utils.SanitizeForEnvoy` is not under `src/`; the
spec only states that vhost names are sanitized forms of
`parentListenerName~hostname` and that two distinct hostnames may sanitize to
the same vhost name. Modelled as replacing every character that is not
alphanumeric or one of `.`, `~`, `-`, `_` with an underscore. -/
def SanitizeForEnvoy (s : String) : String :=
  String.mk (s.data.map (fun c =>
    if c.isAlphanum || c == '.' || c == '~' || c == '-' || c == '_' then c else '_'))

def makeVhostName (parentName : String) (domain : String) : String :=
  SanitizeForEnvoy (parentName ++ "~" ++ domain)

/-- Modelled from the spec: `query.GenerateRouteKey` is not under `src/`; it is
an injective encoding of the (parent reference, listener name) pair. -/
def GenerateRouteKey (parent : String) (name : String) : String :=
  parent ++ "/" ++ name

def GenerateListenerNameFromPort (port : Nat) : String :=
  "listener~" ++ toString port

def GenerateListenerName (listener : GwListener) : String :=
  GenerateListenerNameFromPort listener.port

def getListenerPortNumber (listener : GwListener) : Nat := listener.port

/-- `isHostContained(host, maybeLhost)`: nil listener hostname contains
everything; a `*.suffix` listener hostname contains any host ending in
`.suffix`; otherwise exact equality. String prefix/suffix tests are done on the
character lists (equivalent to Go's byte tests for the `*.` pattern). -/
def isHostContained (host : String) (maybeLhost : Option String) : Bool :=
  match maybeLhost with
  | none => true
  | some lh =>
    (decide (lh.data.take 2 = ['*', '.']) && List.isSuffixOf (lh.data.drop 1) host.data)
      || host == lh

/-! ### Host buckets (`routesByHost`, a Go map modelled as an
insertion-ordered association list) -/

abbrev Buckets := List (String × List Nat)

/-- `routesByHost[host] = append(routesByHost[host], rules...)`. -/
def upsert (m : Buckets) (k : String) (v : List Nat) : Buckets :=
  match m with
  | [] => [(k, v)]
  | (k0, v0) :: rest =>
    if k0 = k then (k0, v0 ++ v) :: rest else (k0, v0) :: upsert rest k v

/-- `buildRoutesPerHost`: for each bound route, the (collaborator-produced)
translated rules are bucketed under each of the route's hostnames, or under
`"*"` when the route declares none; routes translating to zero rules are
skipped. -/
def buildRoutesPerHost (m : Buckets) (routes : List RouteInfo) : Buckets :=
  routes.foldl (fun acc ri =>
    let rs := ri.object.translatedRules
    if rs = [] then acc
    else
      let hostnames := if ri.object.hostnames = [] then ["*"] else ri.object.hostnames
      hostnames.foldl (fun acc2 h => upsert acc2 h rs) acc) m

/-! ### Virtual hosts -/

structure VirtualHost where
  Name : String
  Hostname : String
  Rules : List Nat
  AttachedPolicies : String
  ParentRef : GwListener
deriving DecidableEq

/-- Byte-wise lexicographic comparison on character lists (the order Go's
`<` uses on strings), as an executable Bool. -/
def lexLe : List Char → List Char → Bool
  | [], _ => true
  | _ :: _, [] => false
  | a :: as, b :: bs => if a < b then true else if b < a then false else lexLe as bs

def strLeB (a b : String) : Bool := lexLe a.data b.data

def vhLeB (a b : VirtualHost) : Bool := strLeB a.Name b.Name

/-- Insertion step of the sort used to model `sort.Slice(virtualHosts, by Name)`
(vhost names are deduplicated before sorting, so any correct sort produces this
result). -/
def insertBy {α : Type} (le : α → α → Bool) (x : α) : List α → List α
  | [] => [x]
  | y :: ys => if le x y then x :: y :: ys else y :: insertBy le x ys

def sortBy {α : Type} (le : α → α → Bool) : List α → List α
  | [] => []
  | x :: xs => insertBy le x (sortBy le xs)

def vhSort (l : List VirtualHost) : List VirtualHost := sortBy vhLeB l

/-- Stable sort of the rules inside one host bucket (`sort.Stable(vhostRoutes)`;
the route total order is delegated to `routeutils` and modelled as `Nat.ble`). -/
def sortRules (rs : List Nat) : List Nat := sortBy Nat.ble rs

/-- The `virtualHostNames` dedup map of the translation loop: a vhost whose
name was already produced is skipped (first occurrence wins). -/
def dedupByName : List VirtualHost → List String → List VirtualHost
  | [], _ => []
  | v :: rest, seen =>
    if v.Name ∈ seen then dedupByName rest seen
    else v :: dedupByName rest (v.Name :: seen)

/-- Name-level view of `dedupByName`. -/
def firstDedup : List String → List String → List String
  | [], _ => []
  | x :: rest, seen =>
    if x ∈ seen then firstDedup rest seen else x :: firstDedup rest (x :: seen)

/-! ### HTTP filter chain (plaintext) -/

/-- One plaintext listener's contribution to the shared HTTP filter chain. -/
structure HttpFCParent where
  gatewayListenerName : String
  gatewayListener : GwListener
  routesWithHosts : List RouteInfo
  attachedPolicies : String
deriving DecidableEq

structure httpFilterChain where
  parents : List HttpFCParent
deriving DecidableEq

def parentHostnameLen (p : HttpFCParent) : Int :=
  match p.gatewayListener.hostname with
  | some h => (h.length : Int)
  | none => 0

/-- The per-host policy attribution loop of `translateHttpFilterChain`:
scan the parents in order, keep the policies and listener of the matching
parent with the strictly largest hostname length seen so far
(`maxHostnameLen` starts at -1). -/
def chooseAttrGo (host : String) : List HttpFCParent → (String × GwListener) → Int → (String × GwListener)
  | [], acc, _ => acc
  | p :: rest, acc, maxLen =>
    if isHostContained host p.gatewayListener.hostname then
      if maxLen < parentHostnameLen p then
        chooseAttrGo host rest (p.attachedPolicies, p.gatewayListener) (parentHostnameLen p)
      else chooseAttrGo host rest acc maxLen
    else chooseAttrGo host rest acc maxLen

def chooseAttribution (host : String) (parents : List HttpFCParent) : String × GwListener :=
  chooseAttrGo host parents ("", GwListener.zero) (-1)

/-! ### Output IR -/

structure TlsBundle where
  privateKey : String
  certChain : String
  ca : String
deriving DecidableEq

structure HttpFilterChainIR where
  filterChainName : String
  sniDomains : List String
  tlsTermination : Option TlsBundle
  attachedPolicies : String
  vhosts : List VirtualHost
deriving DecidableEq

structure TcpIR where
  filterChainName : String
  sniDomains : List String
  backendRefs : List BackendRef
deriving DecidableEq

structure ListenerIR where
  Name : String
  bindAddress : String
  bindPort : Nat
  attachedPolicies : String
  httpFilterChain : List HttpFilterChainIR
  tcpFilterChain : List TcpIR
  policyAncestorRef : String
deriving DecidableEq

/-- Build the virtual host for one host bucket of the shared plaintext chain:
rules sorted by the delegated route order, name sanitized from
`parentName~host`, policies and parent ref from the attribution loop. -/
def mkVhostHttp (parents : List HttpFCParent) (parentName : String) (e : String × List Nat) : VirtualHost :=
  let att := chooseAttribution e.1 parents
  { Name := makeVhostName parentName e.1, Hostname := e.1, Rules := sortRules e.2,
    AttachedPolicies := att.1, ParentRef := att.2 }

/-- Build the virtual host for one host bucket of an HTTPS chain (no
multi-parent policy attribution: Go leaves those fields at their zero values). -/
def mkVhostHttps (parentName : String) (e : String × List Nat) : VirtualHost :=
  { Name := makeVhostName parentName e.1, Hostname := e.1, Rules := sortRules e.2,
    AttachedPolicies := "", ParentRef := GwListener.zero }

/-- The accumulated `routesByHost` map of `translateHttpFilterChain`, in
insertion order. -/
def canonicalBuckets (parents : List HttpFCParent) : Buckets :=
  parents.foldl (fun m p => buildRoutesPerHost m p.routesWithHosts) []

/-- `translateHttpFilterChain` with the Go map iteration order of
`routesByHost` made explicit as `entries`. -/
def translateHttpFilterChainWith (parents : List HttpFCParent) (parentName : String)
    (entries : Buckets) : HttpFilterChainIR :=
  { filterChainName := parentName, sniDomains := [], tlsTermination := none,
    attachedPolicies := "",
    vhosts := vhSort (dedupByName (entries.map (mkVhostHttp parents parentName)) []) }

def httpFilterChain.translateHttpFilterChain (fc : httpFilterChain) (parentName : String) : HttpFilterChainIR :=
  translateHttpFilterChainWith fc.parents parentName (canonicalBuckets fc.parents)

/-! ### SSL resolution -/

/-- The typed Go errors that `translateHttpsFilterChain` pattern-matches on:
`krtcollections.ErrMissingReferenceGrant`, `sslutils.ErrInvalidTlsSecret`
(wrapped with the validator's message), `krtcollections.NotFoundError`, and
anything else. -/
inductive GoError where
  | missingReferenceGrant
  | invalidTlsSecret (msg : String)
  | notFound (namespaceName : String) (objName : String)
  | otherErr (msg : String)
deriving DecidableEq

/-- A Kubernetes TLS secret with the three data keys read by
`translateSslConfig` (`tls.crt`, `tls.key`, `ca.crt`). -/
structure Secret where
  secretName : String
  secretNamespace : String
  tlsCert : String
  tlsKey : String
  rootCa : String
deriving DecidableEq

/-- Modelled from the spec: the secret/backend resolver collaborators
(`queries.GetSecretForRef`, which enforces ReferenceGrant authorization, and
`sslutils.ValidateTlsSecretData`) are not under `src/`; they are consumed as
function-valued parameters returning the typed errors above. -/
structure Collaborators where
  getSecretForRef : String → String → Except GoError Secret
  validateTlsSecretData : Secret → Option GoError

/-- `translateSslConfig`: nil TLS or mode other than Terminate is a soft no-op;
exactly one certificate ref is supported; the secret is fetched and
pre-validated before being packaged as a `TlsBundle`. -/
def translateSslConfig (q : Collaborators) (parentNamespace : String)
    (tls : Option TLSConfig) : Except GoError (Option TlsBundle) :=
  match tls with
  | none => Except.ok none
  | some t =>
    if t.mode ≠ some TLSMode.Terminate then Except.ok none
    else
      match t.certificateRefs with
      | [certRef] =>
        match q.getSecretForRef parentNamespace certRef with
        | Except.error e => Except.error e
        | Except.ok secret =>
          match q.validateTlsSecretData secret with
          | some e => Except.error e
          | none =>
            Except.ok (some { privateKey := secret.tlsKey, certChain := secret.tlsCert,
                              ca := secret.rootCa })
      | _ => Except.error (GoError.otherErr "only one certificate ref is supported for now")

/-- The reason of the `ResolvedRefs=False` condition for a TLS resolution
failure (`RefNotPermitted` for a missing ReferenceGrant, otherwise the
`InvalidCertificateRef` default). -/
def sslFailReason : GoError → CondReason
  | GoError.missingReferenceGrant => CondReason.RefNotPermitted
  | _ => CondReason.InvalidCertificateRef

/-- The message of both failure conditions, following the sequential overrides
in the Go error mapping. -/
def sslFailMessage : GoError → String
  | GoError.missingReferenceGrant => "Reference not permitted by ReferenceGrant."
  | GoError.invalidTlsSecret msg => msg
  | GoError.notFound nsName objName => "Secret " ++ nsName ++ "/" ++ objName ++ " not found."
  | GoError.otherErr _ => "Invalid certificate ref."

/-! ### HTTPS filter chain -/

/-- One HTTPS listener's chain entry. Go replaces a nil listener TLS config by
the empty `ListenerTLSConfig`, so `tls` is not optional here. Note there is no
per-chain reporter field (unlike `tcpFilterChain`). -/
structure httpsFilterChain where
  gatewayListenerName : String
  sniDomain : Option String
  tls : TLSConfig
  routesWithHosts : List RouteInfo
  attachedPolicies : String
deriving DecidableEq

def sniList : Option String → List String
  | some h => [h]
  | none => []

/-- The vhost list of one HTTPS chain, with map iteration order explicit. -/
def httpsVhostsWith (parentName : String) (entries : Buckets) : List VirtualHost :=
  vhSort (dedupByName (entries.map (mkVhostHttps parentName)) [])

/-- `translateHttpsFilterChain`: vhosts from this listener's routes only; on a
TLS resolution failure both `ResolvedRefs=False` and `Programmed=False` are set
on the supplied listener reporter and no chain is returned. -/
def httpsFilterChain.translateHttpsFilterChain (mfc : httpsFilterChain) (q : Collaborators)
    (parentName : String) (gatewayNamespace : String) (listenerReporter : String) :
    Option HttpFilterChainIR × List Event :=
  let virtualHosts := httpsVhostsWith parentName (buildRoutesPerHost [] mfc.routesWithHosts)
  let matcher := sniList mfc.sniDomain
  match translateSslConfig q gatewayNamespace (some mfc.tls) with
  | Except.error e =>
    (none,
     [Event.listenerCond listenerReporter
        { condType := CondType.ResolvedRefs, statusTrue := false,
          reason := sslFailReason e, message := sslFailMessage e },
      Event.listenerCond listenerReporter
        { condType := CondType.Programmed, statusTrue := false,
          reason := CondReason.Invalid, message := sslFailMessage e }])
  | Except.ok sslConfig =>
    (some { filterChainName := parentName, sniDomains := matcher,
            tlsTermination := sslConfig, attachedPolicies := mfc.attachedPolicies,
            vhosts := virtualHosts }, [])

/-! ### TCP / TLS passthrough filter chain -/

structure tcpFilterChainParent where
  gatewayListenerName : String
  routesWithHosts : List RouteInfo
deriving DecidableEq

/-- One TCP/TLS listener's chain entry; carries its own listener reporter. -/
structure tcpFilterChain where
  parents : tcpFilterChainParent
  tls : Option TLSConfig
  sniDomain : Option String
  listenerReporter : String
deriving DecidableEq

/-- `slices.MinFunc` over creation timestamps: the first element attaining the
minimum wins (a later candidate replaces only when strictly smaller). -/
def minFirst (best : RouteInfo) : List RouteInfo → RouteInfo
  | [] => best
  | x :: rest =>
    if x.object.creationTime < best.object.creationTime then minFirst x rest
    else minFirst best rest

def backendErrMsg (b : BackendRef) : String :=
  match b.err with
  | some m => m
  | none => "not found"

def TcpTlsListenerNoBackendsMessage : String := "TCP/TLS listener has no valid backends or routes"

def tcpEscalationCondition : Condition :=
  { condType := CondType.Programmed, statusTrue := false,
    reason := CondReason.Invalid, message := TcpTlsListenerNoBackendsMessage }

/-- Shared body of the `*ir.TcpRouteIR` and `*ir.TlsRouteIR` branches of
`translateTcpFilterChain` (they differ only in the SNI matcher passed in).
Mirrors the Go control flow: a route with other than exactly one rule returns
nil before any condition is set on the parent-ref reporters; an accepted route
sets `Accepted=True` per parent ref, reports (but still includes) erroneous
backends, and yields no IR when the backend list is empty. -/
def tcpRouteBranch (d : TcpRouteData) (parentName : String) (sni : List String) :
    Option TcpIR × List Event :=
  if d.rulesCount = 1 then
    let cond : Condition :=
      { condType := CondType.Accepted, statusTrue := true,
        reason := CondReason.ReasonAccepted, message := "" }
    let acceptEvents := d.parentRefs.map (fun pr => Event.routeCond d.routeKey pr cond)
    let backendEvents := (d.backends.map (fun b =>
      if b.err ≠ none ∨ b.hasObject = false then
        d.parentRefs.map (fun pr => Event.backendErr d.routeKey pr (backendErrMsg b))
      else [])).flatten
    let chainName := parentName ++ "-" ++ d.namespaceName ++ "." ++ d.name ++ "-rule-0"
    (if d.backends = [] then none
     else some { filterChainName := chainName, sniDomains := sni, backendRefs := d.backends },
     acceptEvents ++ backendEvents)
  else (none, [])

/-- `translateTcpFilterChain`: zero routes produce nothing; otherwise the
earliest-created route is selected and dispatched on its IR type (the default
branch of the type switch produces nothing). -/
def tcpFilterChain.translateTcpFilterChain (tc : tcpFilterChain) (parentName : String) :
    Option TcpIR × List Event :=
  match tc.parents.routesWithHosts with
  | [] => (none, [])
  | r0 :: rest =>
    let r := minFirst r0 rest
    match r.object with
    | RouteObj.tcpRoute d => tcpRouteBranch d parentName []
    | RouteObj.tlsRoute d => tcpRouteBranch d parentName (sniList tc.sniDomain)
    | RouteObj.http _ _ _ => (none, [])

/-! ### Merged listeners -/

structure ListenerTranslatorConfig where
  listenerBindIpv6 : Bool
deriving DecidableEq

structure MergedListener where
  name : String
  gatewayNamespace : String
  port : Nat
  httpChain : Option httpFilterChain
  httpsFilterChains : List httpsFilterChain
  tcpFilterChains : List tcpFilterChain
  listenerReporter : String
  listener : GwListener
  gateway : String
  settings : ListenerTranslatorConfig
deriving DecidableEq

structure MergedListeners where
  gatewayNamespace : String
  parentGw : String
  listeners : List MergedListener
  settings : ListenerTranslatorConfig
deriving DecidableEq

def mkHttpParent (l : GwListener) (routes : List RouteInfo) : HttpFCParent :=
  { gatewayListenerName := GenerateRouteKey l.parent l.name, gatewayListener := l,
    routesWithHosts := routes, attachedPolicies := l.attachedPolicies }

/-- Scan for the first merged listener with the same port and modify it with
`upd`; `none` means no port match was found (the caller then creates a new
merged listener). Common skeleton of the loops in `appendHttpListener`,
`appendHttpsListener`, `AppendTcpListener` and `AppendTlsListener`. -/
def appendChainGo (upd : MergedListener → MergedListener) (p : Nat) :
    List MergedListener → Option (List MergedListener)
  | [] => none
  | lis :: rest =>
    if lis.port = p then some (upd lis :: rest)
    else
      match appendChainGo upd p rest with
      | some rest2 => some (lis :: rest2)
      | none => none

/-- Append the parent to a merged listener's (possibly absent) HTTP chain. -/
def httpUpd (parent : HttpFCParent) (lis : MergedListener) : MergedListener :=
  match lis.httpChain with
  | some c => { lis with httpChain := some { parents := c.parents ++ [parent] } }
  | none => { lis with httpChain := some { parents := [parent] } }

def httpsUpd (mfc : httpsFilterChain) (lis : MergedListener) : MergedListener :=
  { lis with httpsFilterChains := lis.httpsFilterChains ++ [mfc] }

def tcpUpd (fc : tcpFilterChain) (lis : MergedListener) : MergedListener :=
  { lis with tcpFilterChains := lis.tcpFilterChains ++ [fc] }

def MergedListeners.appendHttpListener (ml : MergedListeners) (l : GwListener)
    (routes : List RouteInfo) (reporter : String) : MergedListeners :=
  match appendChainGo (httpUpd (mkHttpParent l routes)) (getListenerPortNumber l) ml.listeners with
  | some ls => { ml with listeners := ls }
  | none =>
    { ml with listeners := ml.listeners ++
        [{ name := GenerateListenerName l, gatewayNamespace := ml.gatewayNamespace,
           port := getListenerPortNumber l,
           httpChain := some { parents := [mkHttpParent l routes] },
           httpsFilterChains := [], tcpFilterChains := [], listenerReporter := reporter,
           listener := l, gateway := ml.parentGw, settings := ml.settings }] }

def mkHttpsChain (l : GwListener) (routes : List RouteInfo) : httpsFilterChain :=
  { gatewayListenerName := GenerateRouteKey l.parent l.name, sniDomain := l.hostname,
    tls := l.tlsConfig.getD { mode := none, certificateRefs := [] },
    routesWithHosts := routes, attachedPolicies := l.attachedPolicies }

def MergedListeners.appendHttpsListener (ml : MergedListeners) (l : GwListener)
    (routes : List RouteInfo) (reporter : String) : MergedListeners :=
  match appendChainGo (httpsUpd (mkHttpsChain l routes)) (getListenerPortNumber l) ml.listeners with
  | some ls => { ml with listeners := ls }
  | none =>
    { ml with listeners := ml.listeners ++
        [{ name := GenerateListenerName l, gatewayNamespace := ml.gatewayNamespace,
           port := getListenerPortNumber l, httpChain := none,
           httpsFilterChains := [mkHttpsChain l routes], tcpFilterChains := [],
           listenerReporter := reporter,
           listener := l, gateway := ml.parentGw, settings := ml.settings }] }

def mkTcpChain (l : GwListener) (routes : List RouteInfo) (reporter : String) : tcpFilterChain :=
  { parents := { gatewayListenerName := GenerateRouteKey l.parent l.name,
                 routesWithHosts := routes },
    tls := none, sniDomain := none, listenerReporter := reporter }

def mkTlsChain (l : GwListener) (routes : List RouteInfo) (reporter : String) : tcpFilterChain :=
  { parents := { gatewayListenerName := GenerateRouteKey l.parent l.name,
                 routesWithHosts := routes },
    tls := some (l.tlsConfig.getD { mode := none, certificateRefs := [] }),
    sniDomain := l.hostname, listenerReporter := reporter }

def MergedListeners.AppendTcpListener (ml : MergedListeners) (l : GwListener)
    (routes : List RouteInfo) (reporter : String) : MergedListeners :=
  match appendChainGo (tcpUpd (mkTcpChain l routes reporter)) (getListenerPortNumber l) ml.listeners with
  | some ls => { ml with listeners := ls }
  | none =>
    { ml with listeners := ml.listeners ++
        [{ name := GenerateListenerName l, gatewayNamespace := ml.gatewayNamespace,
           port := getListenerPortNumber l, httpChain := none, httpsFilterChains := [],
           tcpFilterChains := [mkTcpChain l routes reporter], listenerReporter := reporter,
           listener := l, gateway := ml.parentGw, settings := ml.settings }] }

/-- Note the Go `AppendTlsListener` does not set the `gateway` field on a newly
created merged listener (unlike the TCP variant); the zero value is kept. -/
def MergedListeners.AppendTlsListener (ml : MergedListeners) (l : GwListener)
    (routes : List RouteInfo) (reporter : String) : MergedListeners :=
  match appendChainGo (tcpUpd (mkTlsChain l routes reporter)) (getListenerPortNumber l) ml.listeners with
  | some ls => { ml with listeners := ls }
  | none =>
    { ml with listeners := ml.listeners ++
        [{ name := GenerateListenerName l, gatewayNamespace := ml.gatewayNamespace,
           port := getListenerPortNumber l, httpChain := none, httpsFilterChains := [],
           tcpFilterChains := [mkTlsChain l routes reporter], listenerReporter := reporter,
           listener := l, gateway := "", settings := ml.settings }] }

/-- `AppendListener` protocol dispatch. An unsupported protocol value returns
an error in Go which the only caller (`mergeGWListeners`) discards, so the
observable effect is that the merged listeners are unchanged. -/
def MergedListeners.AppendListener (ml : MergedListeners) (l : GwListener)
    (routes : List RouteInfo) (reporter : String) : MergedListeners :=
  if l.protocol = "HTTP" then ml.appendHttpListener l routes reporter
  else if l.protocol = "HTTPS" then ml.appendHttpsListener l routes reporter
  else if l.protocol = "TCP" then ml.AppendTcpListener l routes reporter
  else if l.protocol = "TLS" then ml.AppendTlsListener l routes reporter
  else ml

/-- `MergedListener.TranslateListener`: translate the at-most-one HTTP chain,
every HTTPS chain (failed ones are skipped), every TCP chain; escalate
`Programmed=False` to every TCP chain reporter when the port has TCP chains and
none produced an IR; assemble the `ListenerIR` with the configured bind address. -/
def MergedListener.TranslateListener (ml : MergedListener) (q : Collaborators) :
    ListenerIR × List Event :=
  let httpChains : List HttpFilterChainIR :=
    match ml.httpChain with
    | some fc => [fc.translateHttpFilterChain ml.name]
    | none => []
  let httpsResults := ml.httpsFilterChains.map (fun mfc =>
    mfc.translateHttpsFilterChain q mfc.gatewayListenerName ml.gatewayNamespace ml.listenerReporter)
  let httpsChains := httpsResults.filterMap Prod.fst
  let httpsEvents := (httpsResults.map Prod.snd).flatten
  let tcpResults := ml.tcpFilterChains.map (fun tfc => tfc.translateTcpFilterChain ml.name)
  let matchedTcpListeners := tcpResults.filterMap Prod.fst
  let tcpEvents := (tcpResults.map Prod.snd).flatten
  let escalationEvents :=
    if 0 < ml.tcpFilterChains.length ∧ matchedTcpListeners.length = 0 then
      ml.tcpFilterChains.map (fun tfc =>
        Event.listenerCond tfc.listenerReporter tcpEscalationCondition)
    else []
  let bindAddress := if ml.settings.listenerBindIpv6 then "::" else "0.0.0.0"
  ({ Name := ml.name, bindAddress := bindAddress, bindPort := ml.port,
     attachedPolicies := "", httpFilterChain := httpChains ++ httpsChains,
     tcpFilterChain := matchedTcpListeners,
     policyAncestorRef := ml.listener.policyAncestorRef },
   httpsEvents ++ tcpEvents ++ escalationEvents)

/-- `MergedListeners.translateListeners`: one `ListenerIR` per merged listener,
unconditionally. -/
def MergedListeners.translateListeners (ml : MergedListeners) (q : Collaborators) :
    List ListenerIR × List Event :=
  (ml.listeners.map (fun m => (m.TranslateListener q).1),
   (ml.listeners.map (fun m => (m.TranslateListener q).2)).flatten)

/-- One `AppendListener` call's inputs, as prepared by `mergeGWListeners`
(which derives a per-listener reporter and looks up the bound routes). -/
structure AppendInput where
  listener : GwListener
  routes : List RouteInfo
  reporter : String
deriving DecidableEq

/-- The `mergeGWListeners` accumulation loop, from an arbitrary starting state. -/
def mergeFold (start : MergedListeners) (inputs : List AppendInput) : MergedListeners :=
  inputs.foldl (fun ml inp => ml.AppendListener inp.listener inp.routes inp.reporter) start

/-- The `mergeGWListeners` accumulation loop over the validated listeners. -/
def foldAppend (ns : String) (gw : String) (cfg : ListenerTranslatorConfig)
    (inputs : List AppendInput) : MergedListeners :=
  mergeFold { gatewayNamespace := ns, parentGw := gw, listeners := [], settings := cfg } inputs


/-! ### Concrete instances used by the claim witnesses and counterexamples -/

def c3Route : RouteInfo :=
  { routeKey := "r1", parentRef := "p1", object := RouteObj.http 0 ["a:b", "a_b"] [1] }

def c3Parents : List HttpFCParent :=
  [{ gatewayListenerName := "gwA/l1", gatewayListener := GwListener.zero,
     routesWithHosts := [c3Route], attachedPolicies := "" }]

def c3EntriesA : Buckets := [("a:b", [1]), ("a_b", [1])]

def c3EntriesB : Buckets := [("a_b", [1]), ("a:b", [1])]

def c4Wild : HttpFCParent :=
  { gatewayListenerName := "gwA/wild",
    gatewayListener := { GwListener.zero with hostname := some "*.example.com" },
    routesWithHosts := [], attachedPolicies := "polWild" }

def c4Exact : HttpFCParent :=
  { gatewayListenerName := "gwA/exact",
    gatewayListener := { GwListener.zero with hostname := some "api.example.com" },
    routesWithHosts := [], attachedPolicies := "polExact" }

def c7backend : BackendRef := { clusterName := "c", err := none, hasObject := true }

def c7r (t : Nat) : RouteInfo :=
  { routeKey := "rk" ++ toString t, parentRef := "p",
    object := RouteObj.tcpRoute
      { name := "r" ++ toString t, namespaceName := "nsp", routeKey := "rk" ++ toString t,
        creationTime := t, parentRefs := ["p"], rulesCount := 1,
        backends := [c7backend] } }

def c7tc : tcpFilterChain :=
  { parents := { gatewayListenerName := "gwA/t", routesWithHosts := [c7r 2, c7r 3, c7r 1] },
    tls := none, sniDomain := none, listenerReporter := "repT" }

def c7tcEmpty : tcpFilterChain :=
  { parents := { gatewayListenerName := "gwA/t", routesWithHosts := [] },
    tls := none, sniDomain := none, listenerReporter := "repT" }

def c7tcSingle : tcpFilterChain :=
  { parents := { gatewayListenerName := "gwA/t", routesWithHosts := [c7r 1] },
    tls := none, sniDomain := none, listenerReporter := "repT" }

def c8route : TcpRouteData :=
  { name := "r8", namespaceName := "nsp", routeKey := "rk8", creationTime := 0,
    parentRefs := ["p1"], rulesCount := 2,
    backends := [{ clusterName := "c", err := none, hasObject := true }] }

def c8tc : tcpFilterChain :=
  { parents := { gatewayListenerName := "gwA/t8",
                 routesWithHosts := [{ routeKey := "rk8", parentRef := "p1",
                                       object := RouteObj.tcpRoute c8route }] },
    tls := none, sniDomain := none, listenerReporter := "rep8" }

def c9d : TcpRouteData :=
  { name := "r9", namespaceName := "nsp", routeKey := "rk9", creationTime := 0,
    parentRefs := ["p1", "p2"], rulesCount := 1,
    backends := [{ clusterName := "c1", err := some "boom", hasObject := true },
                 { clusterName := "c2", err := none, hasObject := true }] }

def c9ri : RouteInfo :=
  { routeKey := "rk9", parentRef := "p1", object := RouteObj.tcpRoute c9d }

def c9tc : tcpFilterChain :=
  { parents := { gatewayListenerName := "gwA/t9", routesWithHosts := [c9ri] },
    tls := none, sniDomain := none, listenerReporter := "rep9" }

def c1l1 : GwListener :=
  { GwListener.zero with name := "l1", parent := "gwA", port := 80, protocol := "HTTP", hostname := some "a.com" }

def c1l2 : GwListener :=
  { GwListener.zero with name := "l2", parent := "gwA", port := 80, protocol := "HTTP" }

def c1i1 : AppendInput :=
  { listener := c1l1,
    routes := [{ routeKey := "r1", parentRef := "p1",
                 object := RouteObj.http 0 ["b.com", "a.com"] [2, 1] }],
    reporter := "rep1" }

def c1i2 : AppendInput :=
  { listener := c1l2,
    routes := [{ routeKey := "r2", parentRef := "p2",
                 object := RouteObj.http 0 [] [5] }],
    reporter := "rep2" }

def cqTrivial : Collaborators :=
  { getSecretForRef := fun _ _ => Except.error (GoError.otherErr "unused"),
    validateTlsSecretData := fun _ => none }

def c2l1 : GwListener :=
  { GwListener.zero with name := "h1", parent := "gwA", port := 443, protocol := "HTTPS", hostname := some "a.com" }

def c2l2 : GwListener :=
  { GwListener.zero with name := "h2", parent := "gwA", port := 443, protocol := "HTTPS" }

def c2i1 : AppendInput :=
  { listener := c2l1, routes := [], reporter := "repH1" }

def c2i2 : AppendInput :=
  { listener := c2l2, routes := [], reporter := "repH2" }

def c5lA : GwListener :=
  { GwListener.zero with name := "hA", parent := "gwA", port := 443, protocol := "HTTPS", hostname := some "a.com", tlsConfig := some { mode := some TLSMode.Terminate, certificateRefs := ["goodRef"] } }

def c5lB : GwListener :=
  { GwListener.zero with name := "hB", parent := "gwA", port := 443, protocol := "HTTPS", hostname := some "b.com", tlsConfig := some { mode := some TLSMode.Terminate, certificateRefs := ["badRef"] } }

def c5LA : AppendInput :=
  { listener := c5lA, routes := [], reporter := "rA" }

def c5LB : AppendInput :=
  { listener := c5lB, routes := [], reporter := "rB" }

def c5q : Collaborators :=
  { getSecretForRef := fun _ cr =>
      if cr = "goodRef" then
        Except.ok { secretName := "s", secretNamespace := "nsp", tlsCert := "CERT",
                    tlsKey := "KEY", rootCa := "" }
      else Except.error (GoError.notFound "nsp" "badsecret"),
    validateTlsSecretData := fun _ => none }

def c5mDefault : MergedListener :=
  { name := "", gatewayNamespace := "", port := 0, httpChain := none,
    httpsFilterChains := [], tcpFilterChains := [], listenerReporter := "",
    listener := GwListener.zero, gateway := "", settings := { listenerBindIpv6 := false } }

def c5m : MergedListener :=
  ((foldAppend "nsp" "gwA" { listenerBindIpv6 := false } [c5LA, c5LB]).listeners).headD
    c5mDefault

def c6tcA : tcpFilterChain :=
  { parents := { gatewayListenerName := "gwA/tA", routesWithHosts := [] },
    tls := none, sniDomain := none, listenerReporter := "tA" }

def c6tcB : tcpFilterChain :=
  { parents := { gatewayListenerName := "gwA/tB", routesWithHosts := [] },
    tls := none, sniDomain := none, listenerReporter := "tB" }

def c6routeG : TcpRouteData :=
  { name := "rG", namespaceName := "nsp", routeKey := "rkG", creationTime := 0,
    parentRefs := ["p"], rulesCount := 1,
    backends := [{ clusterName := "c", err := none, hasObject := true }] }

def c6riG : RouteInfo :=
  { routeKey := "rkG", parentRef := "p", object := RouteObj.tcpRoute c6routeG }

def c6tcGood : tcpFilterChain :=
  { parents := { gatewayListenerName := "gwA/tG", routesWithHosts := [c6riG] },
    tls := none, sniDomain := none, listenerReporter := "tG" }

def c6mFail : MergedListener :=
  { name := "listener~9000", gatewayNamespace := "nsp", port := 9000, httpChain := none,
    httpsFilterChains := [], tcpFilterChains := [c6tcA, c6tcB], listenerReporter := "L",
    listener := GwListener.zero, gateway := "gwA",
    settings := { listenerBindIpv6 := false } }

def c6mOk : MergedListener :=
  { name := "listener~9000", gatewayNamespace := "nsp", port := 9000, httpChain := none,
    httpsFilterChains := [], tcpFilterChains := [c6tcGood, c6tcA], listenerReporter := "L",
    listener := GwListener.zero, gateway := "gwA",
    settings := { listenerBindIpv6 := false } }

/-! ### Order lemmas for the byte-wise string comparison -/

theorem lexLe_nil (y : List Char) : lexLe [] y = true := rfl

theorem lexLe_cons_iff (a b : Char) (as bs : List Char) :
    lexLe (a :: as) (b :: bs) = true ↔ a < b ∨ (a = b ∧ lexLe as bs = true) := by
  by_cases hab : a < b
  · simp [lexLe, hab]
  · by_cases hba : b < a
    · have hne : a ≠ b := fun h => absurd (h ▸ hba) (lt_irrefl a)
      simp [lexLe, hab, hba, hne]
    · have heq : a = b := le_antisymm (not_lt.mp hba) (not_lt.mp hab)
      simp [lexLe, hab, hba, heq]

theorem lexLe_total : ∀ x y : List Char, lexLe x y = true ∨ lexLe y x = true := by
  intro x
  induction x with
  | nil => intro y; exact Or.inl rfl
  | cons a as ih =>
    intro y
    cases y with
    | nil => exact Or.inr rfl
    | cons b bs =>
      rcases lt_trichotomy a b with hab | hab | hab
      · exact Or.inl ((lexLe_cons_iff a b as bs).mpr (Or.inl hab))
      · rcases ih bs with h | h
        · exact Or.inl ((lexLe_cons_iff a b as bs).mpr (Or.inr ⟨hab, h⟩))
        · exact Or.inr ((lexLe_cons_iff b a bs as).mpr (Or.inr ⟨hab.symm, h⟩))
      · exact Or.inr ((lexLe_cons_iff b a bs as).mpr (Or.inl hab))

theorem lexLe_trans : ∀ x y z : List Char,
    lexLe x y = true → lexLe y z = true → lexLe x z = true := by
  intro x
  induction x with
  | nil => intro y z h1 h2; rfl
  | cons a as ih =>
    intro y z h1 h2
    cases y with
    | nil => exact Bool.noConfusion h1
    | cons b bs =>
      cases z with
      | nil => exact Bool.noConfusion h2
      | cons c cs =>
        rw [lexLe_cons_iff] at h1 h2 ⊢
        rcases h1 with hab | ⟨hab, h1r⟩
        · rcases h2 with hbc | ⟨hbc, h2r⟩
          · exact Or.inl (lt_trans hab hbc)
          · exact Or.inl (by rw [← hbc]; exact hab)
        · rcases h2 with hbc | ⟨hbc, h2r⟩
          · exact Or.inl (by rw [hab]; exact hbc)
          · exact Or.inr ⟨hab.trans hbc, ih bs cs h1r h2r⟩

theorem lexLe_antisymm : ∀ x y : List Char,
    lexLe x y = true → lexLe y x = true → x = y := by
  intro x
  induction x with
  | nil =>
    intro y h1 h2
    cases y with
    | nil => rfl
    | cons b bs => exact Bool.noConfusion h2
  | cons a as ih =>
    intro y h1 h2
    cases y with
    | nil => exact Bool.noConfusion h1
    | cons b bs =>
      rw [lexLe_cons_iff] at h1 h2
      rcases h1 with hab | ⟨hab, h1r⟩
      · rcases h2 with hba | ⟨hba, h2r⟩
        · exact absurd (lt_trans hab hba) (lt_irrefl a)
        · subst hba
          exact absurd hab (lt_irrefl _)
      · subst hab
        rcases h2 with hba | ⟨hba, h2r⟩
        · exact absurd hba (lt_irrefl _)
        · rw [ih bs h1r h2r]

theorem strLeB_total (a b : String) : strLeB a b = true ∨ strLeB b a = true :=
  lexLe_total a.data b.data

theorem strLeB_trans (a b c : String) :
    strLeB a b = true → strLeB b c = true → strLeB a c = true :=
  lexLe_trans a.data b.data c.data

theorem strLeB_antisymm (a b : String) :
    strLeB a b = true → strLeB b a = true → a = b := by
  intro h1 h2
  have h := lexLe_antisymm a.data b.data h1 h2
  cases a with
  | mk da =>
    cases b with
    | mk db => exact congrArg String.mk h

theorem vhLeB_total (a b : VirtualHost) : vhLeB a b = true ∨ vhLeB b a = true :=
  strLeB_total a.Name b.Name

theorem vhLeB_trans (a b c : VirtualHost) :
    vhLeB a b = true → vhLeB b c = true → vhLeB a c = true :=
  strLeB_trans a.Name b.Name c.Name

/-! ### Sorting lemmas -/

theorem insertBy_perm {α : Type} (le : α → α → Bool) (x : α) :
    ∀ l : List α, (insertBy le x l).Perm (x :: l) := by
  intro l
  induction l with
  | nil => exact List.Perm.refl _
  | cons y ys ih =>
    by_cases h : le x y = true
    · simp [insertBy, h]
    · simp only [insertBy, if_neg h]
      exact (ih.cons y).trans (List.Perm.swap x y ys)

theorem sortBy_perm {α : Type} (le : α → α → Bool) :
    ∀ l : List α, (sortBy le l).Perm l := by
  intro l
  induction l with
  | nil => exact List.Perm.refl _
  | cons x xs ih => exact (insertBy_perm le x (sortBy le xs)).trans (ih.cons x)

theorem insertBy_sorted {α : Type} (le : α → α → Bool)
    (htot : ∀ a b : α, le a b = true ∨ le b a = true)
    (htrans : ∀ a b c : α, le a b = true → le b c = true → le a c = true)
    (x : α) : ∀ l : List α, List.Pairwise (fun a b => le a b = true) l →
      List.Pairwise (fun a b => le a b = true) (insertBy le x l) := by
  intro l
  induction l with
  | nil => intro _; simp [insertBy]
  | cons y ys ih =>
    intro hs
    rcases List.pairwise_cons.mp hs with ⟨hy, hys⟩
    by_cases h : le x y = true
    · simp only [insertBy, if_pos h]
      refine List.pairwise_cons.mpr ⟨?_, hs⟩
      intro z hz
      rcases List.mem_cons.mp hz with hz | hz
      · rw [hz]; exact h
      · exact htrans x y z h (hy z hz)
    · simp only [insertBy, if_neg h]
      refine List.pairwise_cons.mpr ⟨?_, ih hys⟩
      intro z hz
      have hz2 : z ∈ x :: ys := (insertBy_perm le x ys).subset hz
      rcases List.mem_cons.mp hz2 with hz2 | hz2
      · rw [hz2]
        rcases htot x y with h2 | h2
        · exact absurd h2 h
        · exact h2
      · exact hy z hz2

theorem sortBy_sorted {α : Type} (le : α → α → Bool)
    (htot : ∀ a b : α, le a b = true ∨ le b a = true)
    (htrans : ∀ a b c : α, le a b = true → le b c = true → le a c = true) :
    ∀ l : List α, List.Pairwise (fun a b => le a b = true) (sortBy le l) := by
  intro l
  induction l with
  | nil => simp [sortBy]
  | cons x xs ih => exact insertBy_sorted le htot htrans x (sortBy le xs) ih

theorem vhSort_perm (l : List VirtualHost) : (vhSort l).Perm l :=
  sortBy_perm vhLeB l

theorem vhSort_sorted (l : List VirtualHost) :
    List.Pairwise (fun a b => vhLeB a b = true) (vhSort l) :=
  sortBy_sorted vhLeB vhLeB_total vhLeB_trans l

/-- Two sorted vhost lists that are permutations of each other and have
duplicate-free names are equal. -/
theorem vh_sorted_perm_eq : ∀ (l1 l2 : List VirtualHost), l1.Perm l2 →
    List.Pairwise (fun a b => vhLeB a b = true) l1 →
    List.Pairwise (fun a b => vhLeB a b = true) l2 →
    (l1.map VirtualHost.Name).Nodup → l1 = l2 := by
  intro l1
  induction l1 with
  | nil =>
    intro l2 hp _ _ _
    exact (hp.symm.eq_nil).symm ▸ rfl
  | cons a t1 ih =>
    intro l2 hp hs1 hs2 hn
    cases l2 with
    | nil => exact absurd hp.eq_nil (by simp)
    | cons b t2 =>
      have hab : a = b := by
        by_contra hne
        have hbmem : b ∈ a :: t1 := hp.symm.subset (List.mem_cons_self b t2)
        have hbt : b ∈ t1 := by
          rcases List.mem_cons.mp hbmem with h | h
          · exact absurd h.symm hne
          · exact h
        have hamem : a ∈ b :: t2 := hp.subset (List.mem_cons_self a t1)
        have hat2 : a ∈ t2 := by
          rcases List.mem_cons.mp hamem with h | h
          · exact absurd h hne
          · exact h
        have h1 : vhLeB a b = true := (List.pairwise_cons.mp hs1).1 b hbt
        have h2 : vhLeB b a = true := (List.pairwise_cons.mp hs2).1 a hat2
        have hnameEq : a.Name = b.Name := strLeB_antisymm a.Name b.Name h1 h2
        have hnotin : a.Name ∉ t1.map VirtualHost.Name := (List.nodup_cons.mp hn).1
        exact hnotin (hnameEq ▸ List.mem_map.mpr ⟨b, hbt, rfl⟩)
      subst hab
      have ht : t1.Perm t2 := hp.cons_inv
      rw [ih t2 ht (List.pairwise_cons.mp hs1).2 (List.pairwise_cons.mp hs2).2
        (List.nodup_cons.mp hn).2]

/-! ### Dedup lemmas -/

theorem dedupByName_names : ∀ (l : List VirtualHost) (seen : List String),
    (dedupByName l seen).map VirtualHost.Name = firstDedup (l.map VirtualHost.Name) seen := by
  intro l
  induction l with
  | nil => intro seen; rfl
  | cons v rest ih =>
    intro seen
    by_cases h : v.Name ∈ seen
    · simp [dedupByName, firstDedup, h, ih]
    · simp [dedupByName, firstDedup, h, ih]

theorem firstDedup_nodup : ∀ (l seen : List String),
    (firstDedup l seen).Nodup ∧ ∀ x ∈ firstDedup l seen, x ∉ seen := by
  intro l
  induction l with
  | nil => intro seen; exact ⟨List.nodup_nil, by simp [firstDedup]⟩
  | cons x rest ih =>
    intro seen
    by_cases hx : x ∈ seen
    · simpa [firstDedup, hx] using ih seen
    · have ihx := ih (x :: seen)
      refine ⟨?_, ?_⟩
      · simp only [firstDedup, if_neg hx]
        refine List.nodup_cons.mpr ⟨?_, ihx.1⟩
        intro hmem
        exact (ihx.2 x hmem) (List.mem_cons_self x seen)
      · intro y hy
        simp only [firstDedup, if_neg hx] at hy
        rcases List.mem_cons.mp hy with h | h
        · rw [h]; exact hx
        · intro hcon
          exact (ihx.2 y h) (List.mem_cons_of_mem x hcon)

theorem dedupByName_all : ∀ (l : List VirtualHost) (seen : List String),
    (l.map VirtualHost.Name).Nodup → (∀ v ∈ l, v.Name ∉ seen) →
    dedupByName l seen = l := by
  intro l
  induction l with
  | nil => intro seen _ _; rfl
  | cons v rest ih =>
    intro seen hn hseen
    rw [List.map_cons] at hn
    rcases List.nodup_cons.mp hn with ⟨hvn, hrest⟩
    have hv : v.Name ∉ seen := hseen v (List.mem_cons_self v rest)
    have hseen2 : ∀ w ∈ rest, w.Name ∉ v.Name :: seen := by
      intro w hw hcon
      rcases List.mem_cons.mp hcon with h | h
      · exact hvn (by rw [← h]; exact List.mem_map.mpr ⟨w, hw, rfl⟩)
      · exact hseen w (List.mem_cons_of_mem v hw) h
    simp only [dedupByName, if_neg hv]
    rw [ih (v.Name :: seen) hrest hseen2]

theorem dedupByName_subset : ∀ (l : List VirtualHost) (seen : List String) (v : VirtualHost),
    v ∈ dedupByName l seen → v ∈ l := by
  intro l
  induction l with
  | nil => intro seen v h; simpa [dedupByName] using h
  | cons w rest ih =>
    intro seen v h
    by_cases hw : w.Name ∈ seen
    · simp only [dedupByName, if_pos hw] at h
      exact List.mem_cons_of_mem w (ih seen v h)
    · simp only [dedupByName, if_neg hw] at h
      rcases List.mem_cons.mp h with h | h
      · rw [h]; exact List.mem_cons_self w rest
      · exact List.mem_cons_of_mem w (ih (w.Name :: seen) v h)

/-- The vhost pipeline (dedup then sort) is invariant under permutation of the
host-bucket entries, provided the produced vhost names are duplicate-free. -/
theorem vhPipeline_perm (mk : String × List Nat → VirtualHost) (e1 e2 : Buckets)
    (hp : e1.Perm e2) (hn : (e1.map (fun e => (mk e).Name)).Nodup) :
    vhSort (dedupByName (e1.map mk) []) = vhSort (dedupByName (e2.map mk) []) := by
  have hn1 : ((e1.map mk).map VirtualHost.Name).Nodup := by
    simpa [List.map_map, Function.comp] using hn
  have hpm : (e1.map mk).Perm (e2.map mk) := hp.map mk
  have hn2 : ((e2.map mk).map VirtualHost.Name).Nodup := (hpm.map VirtualHost.Name).nodup hn1
  have hd1 : dedupByName (e1.map mk) [] = e1.map mk := dedupByName_all _ _ hn1 (by simp)
  have hd2 : dedupByName (e2.map mk) [] = e2.map mk := dedupByName_all _ _ hn2 (by simp)
  rw [hd1, hd2]
  apply vh_sorted_perm_eq
  · exact (vhSort_perm _).trans (hpm.trans (vhSort_perm _).symm)
  · exact vhSort_sorted _
  · exact vhSort_sorted _
  · exact (((vhSort_perm (e1.map mk)).map VirtualHost.Name).symm).nodup hn1

/-! ### Generic list helpers -/

theorem mem_flatten_map {α β : Type} (f : α → List β) (l : List α) (x : α) (b : β)
    (hx : x ∈ l) (hb : b ∈ f x) : b ∈ (l.map f).flatten :=
  List.mem_flatten.mpr ⟨f x, List.mem_map.mpr ⟨x, hx, rfl⟩, hb⟩

theorem filterMap_fst_all_none {α β γ : Type} (g : α → Option β × γ) :
    ∀ l : List α, (∀ x ∈ l, (g x).1 = none) → (l.map g).filterMap Prod.fst = [] := by
  intro l
  induction l with
  | nil => intro _; rfl
  | cons x xs ih =>
    intro h
    simp only [List.map_cons, List.filterMap_cons, h x (List.mem_cons_self x xs)]
    exact ih (fun y hy => h y (List.mem_cons_of_mem x hy))

theorem filterMap_fst_all_some {α β γ : Type} (g : α → Option β × γ) (v : α → β) :
    ∀ l : List α, (∀ x ∈ l, (g x).1 = some (v x)) →
      (l.map g).filterMap Prod.fst = l.map v := by
  intro l
  induction l with
  | nil => intro _; rfl
  | cons x xs ih =>
    intro h
    simp only [List.map_cons, List.filterMap_cons, h x (List.mem_cons_self x xs)]
    rw [ih (fun y hy => h y (List.mem_cons_of_mem x hy))]

theorem filterMap_fst_len {α β γ : Type} (g : α → Option β × γ) :
    ∀ l : List α,
      ((l.map g).filterMap Prod.fst).length = l.countP (fun x => ((g x).1).isSome) := by
  intro l
  rw [List.filterMap_map]
  induction l with
  | nil => rfl
  | cons x xs ih =>
    simp only [List.filterMap_cons, List.countP_cons, Function.comp]
    cases hgx : (g x).1 with
    | none => simpa [hgx] using ih
    | some b => simp [hgx, ih]

/-! ### Policy attribution lemmas -/

theorem parentHostnameLen_nonneg (p : HttpFCParent) : 0 ≤ parentHostnameLen p := by
  unfold parentHostnameLen
  cases p.gatewayListener.hostname with
  | none => exact le_refl 0
  | some h => exact Int.natCast_nonneg _

theorem chooseAttrGo_skip (host : String) :
    ∀ (l : List HttpFCParent) (acc : String × GwListener) (maxLen : Int),
    (∀ q ∈ l, isHostContained host q.gatewayListener.hostname = true →
      parentHostnameLen q ≤ maxLen) →
    chooseAttrGo host l acc maxLen = acc := by
  intro l
  induction l with
  | nil => intro acc maxLen _; rfl
  | cons p rest ih =>
    intro acc maxLen hall
    by_cases hm : isHostContained host p.gatewayListener.hostname = true
    · have hle : parentHostnameLen p ≤ maxLen := hall p (List.mem_cons_self p rest) hm
      have hnlt : ¬ maxLen < parentHostnameLen p := not_lt.mpr hle
      simp only [chooseAttrGo, if_pos hm, if_neg hnlt]
      exact ih acc maxLen (fun q hq hqm => hall q (List.mem_cons_of_mem p hq) hqm)
    · simp only [chooseAttrGo, if_neg hm]
      exact ih acc maxLen (fun q hq hqm => hall q (List.mem_cons_of_mem p hq) hqm)

theorem chooseAttrGo_wins (host : String) (pstar : HttpFCParent) (post : List HttpFCParent)
    (hmatch : isHostContained host pstar.gatewayListener.hostname = true)
    (hpost : ∀ q ∈ post, isHostContained host q.gatewayListener.hostname = true →
      parentHostnameLen q ≤ parentHostnameLen pstar) :
    ∀ (pre : List HttpFCParent) (acc : String × GwListener) (maxLen : Int),
    maxLen < parentHostnameLen pstar →
    (∀ q ∈ pre, isHostContained host q.gatewayListener.hostname = true →
      parentHostnameLen q < parentHostnameLen pstar) →
    chooseAttrGo host (pre ++ pstar :: post) acc maxLen =
      (pstar.attachedPolicies, pstar.gatewayListener) := by
  intro pre
  induction pre with
  | nil =>
    intro acc maxLen hmax _
    simp only [List.nil_append, chooseAttrGo, if_pos hmatch, if_pos hmax]
    exact chooseAttrGo_skip host post _ _ hpost
  | cons r pre2 ih =>
    intro acc maxLen hmax hpre
    have hpre2 : ∀ q ∈ pre2, isHostContained host q.gatewayListener.hostname = true →
        parentHostnameLen q < parentHostnameLen pstar :=
      fun q hq hqm => hpre q (List.mem_cons_of_mem r hq) hqm
    by_cases hm : isHostContained host r.gatewayListener.hostname = true
    · have hlt : parentHostnameLen r < parentHostnameLen pstar :=
        hpre r (List.mem_cons_self r pre2) hm
      by_cases hupd : maxLen < parentHostnameLen r
      · simp only [List.cons_append, chooseAttrGo, if_pos hm, if_pos hupd]
        exact ih _ _ hlt hpre2
      · simp only [List.cons_append, chooseAttrGo, if_pos hm, if_neg hupd]
        exact ih _ _ hmax hpre2
    · simp only [List.cons_append, chooseAttrGo, if_neg hm]
      exact ih _ _ hmax hpre2

theorem chooseAttribution_spec (host : String) (pre post : List HttpFCParent)
    (pstar : HttpFCParent)
    (hmatch : isHostContained host pstar.gatewayListener.hostname = true)
    (hpre : ∀ q ∈ pre, isHostContained host q.gatewayListener.hostname = true →
      parentHostnameLen q < parentHostnameLen pstar)
    (hpost : ∀ q ∈ post, isHostContained host q.gatewayListener.hostname = true →
      parentHostnameLen q ≤ parentHostnameLen pstar) :
    chooseAttribution host (pre ++ pstar :: post) =
      (pstar.attachedPolicies, pstar.gatewayListener) := by
  unfold chooseAttribution
  exact chooseAttrGo_wins host pstar post hmatch hpost pre _ _
    (lt_of_lt_of_le (by norm_num) (parentHostnameLen_nonneg pstar)) hpre

/-! ### Earliest-route selection lemmas -/

theorem minFirst_mem : ∀ (l : List RouteInfo) (b : RouteInfo), minFirst b l ∈ b :: l := by
  intro l
  induction l with
  | nil => intro b; exact List.mem_cons_self b []
  | cons x rest ih =>
    intro b
    by_cases h : x.object.creationTime < b.object.creationTime
    · simp only [minFirst, if_pos h]
      rcases List.mem_cons.mp (ih x) with h2 | h2
      · rw [h2]; exact List.mem_cons_of_mem b (List.mem_cons_self x rest)
      · exact List.mem_cons_of_mem b (List.mem_cons_of_mem x h2)
    · simp only [minFirst, if_neg h]
      rcases List.mem_cons.mp (ih b) with h2 | h2
      · rw [h2]; exact List.mem_cons_self b (x :: rest)
      · exact List.mem_cons_of_mem b (List.mem_cons_of_mem x h2)

theorem minFirst_le : ∀ (l : List RouteInfo) (b : RouteInfo), ∀ x ∈ b :: l,
    (minFirst b l).object.creationTime ≤ x.object.creationTime := by
  intro l
  induction l with
  | nil =>
    intro b x hx
    rcases List.mem_cons.mp hx with h | h
    · rw [h]; exact le_refl _
    · exact absurd h (List.not_mem_nil x)
  | cons y rest ih =>
    intro b x hx
    by_cases hc : y.object.creationTime < b.object.creationTime
    · simp only [minFirst, if_pos hc]
      rcases List.mem_cons.mp hx with h | h
      · rw [h]
        exact le_trans (ih y y (List.mem_cons_self y rest)) (le_of_lt hc)
      · exact ih y x h
    · simp only [minFirst, if_neg hc]
      rcases List.mem_cons.mp hx with h | h
      · exact ih b x (by rw [h]; exact List.mem_cons_self b rest)
      · rcases List.mem_cons.mp h with h2 | h2
        · rw [h2]
          exact le_trans (ih b b (List.mem_cons_self b rest)) (not_lt.mp hc)
        · exact ih b x (List.mem_cons_of_mem b h2)

theorem minFirst_unique (l : List RouteInfo) (b r : RouteInfo)
    (hr : r ∈ b :: l)
    (huniq : ∀ x ∈ b :: l, x ≠ r → r.object.creationTime < x.object.creationTime) :
    minFirst b l = r := by
  by_contra hne
  exact absurd (huniq (minFirst b l) (minFirst_mem l b) hne)
    (not_lt.mpr (minFirst_le l b r hr))

/-! ### Event-shape lemmas for the TCP translation -/

theorem tcpRouteBranch_events_shape (d : TcpRouteData) (pn : String) (sni : List String) :
    ∀ ev ∈ (tcpRouteBranch d pn sni).2, ev.isListenerCond = false := by
  intro ev hev
  unfold tcpRouteBranch at hev
  by_cases hr : d.rulesCount = 1
  · simp only [if_pos hr] at hev
    rcases List.mem_append.mp hev with h | h
    · rcases List.mem_map.mp h with ⟨pr, _, heq⟩
      rw [← heq]; rfl
    · rcases List.mem_flatten.mp h with ⟨s, hs, hev2⟩
      rcases List.mem_map.mp hs with ⟨b, _, heqs⟩
      rw [← heqs] at hev2
      by_cases hbb : b.err ≠ none ∨ b.hasObject = false
      · simp only [if_pos hbb] at hev2
        rcases List.mem_map.mp hev2 with ⟨pr, _, heq⟩
        rw [← heq]; rfl
      · simp only [if_neg hbb] at hev2
        exact absurd hev2 (List.not_mem_nil ev)
  · simp only [if_neg hr] at hev
    exact absurd hev (List.not_mem_nil ev)

theorem translateTcp_events_shape (tc : tcpFilterChain) (pn : String) :
    ∀ ev ∈ (tc.translateTcpFilterChain pn).2, ev.isListenerCond = false := by
  intro ev hev
  unfold tcpFilterChain.translateTcpFilterChain at hev
  cases hroutes : tc.parents.routesWithHosts with
  | nil =>
    rw [hroutes] at hev
    exact absurd hev (List.not_mem_nil ev)
  | cons r0 rest =>
    rw [hroutes] at hev
    cases hobj : (minFirst r0 rest).object with
    | http t hs rs =>
      simp only [hobj] at hev
      exact absurd hev (List.not_mem_nil ev)
    | tcpRoute d =>
      simp only [hobj] at hev
      exact tcpRouteBranch_events_shape d pn [] ev hev
    | tlsRoute d =>
      simp only [hobj] at hev
      exact tcpRouteBranch_events_shape d pn (sniList tc.sniDomain) ev hev

/-! ### Field preservation through the append scan -/

theorem appendChainGo_fields (upd : MergedListener → MergedListener)
    (hupd : ∀ lis, (upd lis).name = lis.name ∧ (upd lis).port = lis.port ∧
      (upd lis).settings = lis.settings) (p : Nat) :
    ∀ (ls ls2 : List MergedListener), appendChainGo upd p ls = some ls2 →
    ∀ m ∈ ls2, ∃ m0 ∈ ls, m.name = m0.name ∧ m.port = m0.port ∧ m.settings = m0.settings := by
  intro ls
  induction ls with
  | nil => intro ls2 h; exact absurd h (by simp [appendChainGo])
  | cons lis rest ih =>
    intro ls2 h m hm
    by_cases hp : lis.port = p
    · simp only [appendChainGo, if_pos hp] at h
      injection h with h
      rw [← h] at hm
      rcases List.mem_cons.mp hm with h2 | h2
      · exact ⟨lis, List.mem_cons_self lis rest, by rw [h2]; exact hupd lis⟩
      · exact ⟨m, List.mem_cons_of_mem lis h2, rfl, rfl, rfl⟩
    · simp only [appendChainGo, if_neg hp] at h
      cases hrec : appendChainGo upd p rest with
      | none => rw [hrec] at h; exact absurd h (by simp)
      | some rest2 =>
        rw [hrec] at h
        injection h with h
        rw [← h] at hm
        rcases List.mem_cons.mp hm with h2 | h2
        · exact ⟨lis, List.mem_cons_self lis rest, by rw [h2]; exact ⟨rfl, rfl, rfl⟩⟩
        · rcases ih rest2 hrec m h2 with ⟨m0, hm0, he⟩
          exact ⟨m0, List.mem_cons_of_mem lis hm0, he⟩

theorem httpUpd_fields (parent : HttpFCParent) (lis : MergedListener) :
    (httpUpd parent lis).name = lis.name ∧ (httpUpd parent lis).port = lis.port ∧
      (httpUpd parent lis).settings = lis.settings := by
  unfold httpUpd
  cases lis.httpChain with
  | some c => exact ⟨rfl, rfl, rfl⟩
  | none => exact ⟨rfl, rfl, rfl⟩

theorem httpsUpd_fields (mfc : httpsFilterChain) (lis : MergedListener) :
    (httpsUpd mfc lis).name = lis.name ∧ (httpsUpd mfc lis).port = lis.port ∧
      (httpsUpd mfc lis).settings = lis.settings :=
  ⟨rfl, rfl, rfl⟩

theorem tcpUpd_fields (fc : tcpFilterChain) (lis : MergedListener) :
    (tcpUpd fc lis).name = lis.name ∧ (tcpUpd fc lis).port = lis.port ∧
      (tcpUpd fc lis).settings = lis.settings :=
  ⟨rfl, rfl, rfl⟩

/-- One `AppendListener` step keeps the configuration and preserves the
name/port/settings discipline of every merged listener: modified listeners keep
their identity, newly created ones are named from their port and inherit the
translator settings. -/
theorem AppendListener_invariant (ml : MergedListeners) (l : GwListener)
    (routes : List RouteInfo) (reporter : String)
    (h : ∀ m ∈ ml.listeners, m.name = GenerateListenerNameFromPort m.port ∧
      m.settings = ml.settings) :
    (ml.AppendListener l routes reporter).settings = ml.settings ∧
    ∀ m ∈ (ml.AppendListener l routes reporter).listeners,
      m.name = GenerateListenerNameFromPort m.port ∧ m.settings = ml.settings := by
  have hgeneric : ∀ (upd : MergedListener → MergedListener),
      (∀ lis, (upd lis).name = lis.name ∧ (upd lis).port = lis.port ∧
        (upd lis).settings = lis.settings) →
      ∀ ls2, appendChainGo upd (getListenerPortNumber l) ml.listeners = some ls2 →
      ∀ m ∈ ls2, m.name = GenerateListenerNameFromPort m.port ∧ m.settings = ml.settings := by
    intro upd hupd ls2 hgo m hm
    rcases appendChainGo_fields upd hupd _ ml.listeners ls2 hgo m hm with ⟨m0, hm0, h1, h2, h3⟩
    rcases h m0 hm0 with ⟨h4, h5⟩
    exact ⟨by rw [h1, h2, h4], by rw [h3, h5]⟩
  unfold MergedListeners.AppendListener
  by_cases hhttp : l.protocol = "HTTP"
  · simp only [if_pos hhttp]
    unfold MergedListeners.appendHttpListener
    cases hgo : appendChainGo (httpUpd (mkHttpParent l routes)) (getListenerPortNumber l) ml.listeners with
    | some ls2 =>
      refine ⟨rfl, ?_⟩
      exact hgeneric _ (httpUpd_fields (mkHttpParent l routes)) ls2 hgo
    | none =>
      refine ⟨rfl, ?_⟩
      intro m hm
      rcases List.mem_append.mp hm with h2 | h2
      · exact h m h2
      · rcases List.mem_cons.mp h2 with h3 | h3
        · rw [h3]; exact ⟨rfl, rfl⟩
        · exact absurd h3 (List.not_mem_nil m)
  · simp only [if_neg hhttp]
    by_cases hhttps : l.protocol = "HTTPS"
    · simp only [if_pos hhttps]
      unfold MergedListeners.appendHttpsListener
      cases hgo : appendChainGo (httpsUpd (mkHttpsChain l routes)) (getListenerPortNumber l) ml.listeners with
      | some ls2 =>
        refine ⟨rfl, ?_⟩
        exact hgeneric _ (httpsUpd_fields (mkHttpsChain l routes)) ls2 hgo
      | none =>
        refine ⟨rfl, ?_⟩
        intro m hm
        rcases List.mem_append.mp hm with h2 | h2
        · exact h m h2
        · rcases List.mem_cons.mp h2 with h3 | h3
          · rw [h3]; exact ⟨rfl, rfl⟩
          · exact absurd h3 (List.not_mem_nil m)
    · simp only [if_neg hhttps]
      by_cases htcp : l.protocol = "TCP"
      · simp only [if_pos htcp]
        unfold MergedListeners.AppendTcpListener
        cases hgo : appendChainGo (tcpUpd (mkTcpChain l routes reporter)) (getListenerPortNumber l) ml.listeners with
        | some ls2 =>
          refine ⟨rfl, ?_⟩
          exact hgeneric _ (tcpUpd_fields (mkTcpChain l routes reporter)) ls2 hgo
        | none =>
          refine ⟨rfl, ?_⟩
          intro m hm
          rcases List.mem_append.mp hm with h2 | h2
          · exact h m h2
          · rcases List.mem_cons.mp h2 with h3 | h3
            · rw [h3]; exact ⟨rfl, rfl⟩
            · exact absurd h3 (List.not_mem_nil m)
      · simp only [if_neg htcp]
        by_cases htls : l.protocol = "TLS"
        · simp only [if_pos htls]
          unfold MergedListeners.AppendTlsListener
          cases hgo : appendChainGo (tcpUpd (mkTlsChain l routes reporter)) (getListenerPortNumber l) ml.listeners with
          | some ls2 =>
            refine ⟨rfl, ?_⟩
            exact hgeneric _ (tcpUpd_fields (mkTlsChain l routes reporter)) ls2 hgo
          | none =>
            refine ⟨rfl, ?_⟩
            intro m hm
            rcases List.mem_append.mp hm with h2 | h2
            · exact h m h2
            · rcases List.mem_cons.mp h2 with h3 | h3
              · rw [h3]; exact ⟨rfl, rfl⟩
              · exact absurd h3 (List.not_mem_nil m)
        · simp only [if_neg htls]
          exact ⟨by trivial, h⟩

theorem mergeFold_invariant :
    ∀ (inputs : List AppendInput) (start : MergedListeners),
    (∀ m ∈ start.listeners, m.name = GenerateListenerNameFromPort m.port ∧
      m.settings = start.settings) →
    (mergeFold start inputs).settings = start.settings ∧
    ∀ m ∈ (mergeFold start inputs).listeners,
      m.name = GenerateListenerNameFromPort m.port ∧ m.settings = start.settings := by
  intro inputs
  induction inputs with
  | nil => intro start h; exact ⟨rfl, h⟩
  | cons i rest ih =>
    intro start h
    have hstep := AppendListener_invariant start i.listener i.routes i.reporter h
    have hrec := ih (start.AppendListener i.listener i.routes i.reporter)
      (fun m hm => ⟨(hstep.2 m hm).1, by rw [(hstep.2 m hm).2, ← hstep.1]⟩)
    have hcons : mergeFold start (i :: rest) =
        mergeFold (start.AppendListener i.listener i.routes i.reporter) rest := rfl
    rw [hcons]
    refine ⟨by rw [hrec.1, hstep.1], ?_⟩
    intro m hm
    rcases hrec.2 m hm with ⟨h1, h2⟩
    exact ⟨h1, by rw [h2, hstep.1]⟩

/-! ### Single-port accumulation lemmas -/

theorem AppendListener_http_single (ns gw : String) (cfg : ListenerTranslatorConfig)
    (m : MergedListener) (c : httpFilterChain) (i : AppendInput) (p : Nat)
    (hport : m.port = p) (hchain : m.httpChain = some c)
    (hproto : i.listener.protocol = "HTTP") (hiport : i.listener.port = p) :
    MergedListeners.AppendListener
      { gatewayNamespace := ns, parentGw := gw, listeners := [m], settings := cfg }
      i.listener i.routes i.reporter =
    { gatewayNamespace := ns, parentGw := gw,
      listeners := [{ m with httpChain := some { parents := c.parents ++ [mkHttpParent i.listener i.routes] } }],
      settings := cfg } := by
  simp [MergedListeners.AppendListener, MergedListeners.appendHttpListener, appendChainGo,
    httpUpd, getListenerPortNumber, hproto, hiport, hport, hchain]

theorem AppendListener_http_first (ns gw : String) (cfg : ListenerTranslatorConfig)
    (i : AppendInput) (hproto : i.listener.protocol = "HTTP") :
    MergedListeners.AppendListener
      { gatewayNamespace := ns, parentGw := gw, listeners := [], settings := cfg }
      i.listener i.routes i.reporter =
    { gatewayNamespace := ns, parentGw := gw,
      listeners := [{ name := GenerateListenerName i.listener, gatewayNamespace := ns,
                      port := i.listener.port,
                      httpChain := some { parents := [mkHttpParent i.listener i.routes] },
                      httpsFilterChains := [], tcpFilterChains := [],
                      listenerReporter := i.reporter, listener := i.listener,
                      gateway := gw, settings := cfg }],
      settings := cfg } := by
  simp [MergedListeners.AppendListener, MergedListeners.appendHttpListener, appendChainGo,
    getListenerPortNumber, hproto]

theorem mergeFold_http (p : Nat) :
    ∀ (tail : List AppendInput) (ns gw : String) (cfg : ListenerTranslatorConfig)
      (m : MergedListener) (c : httpFilterChain),
    m.port = p → m.httpChain = some c →
    (∀ i ∈ tail, i.listener.protocol = "HTTP" ∧ i.listener.port = p) →
    mergeFold { gatewayNamespace := ns, parentGw := gw, listeners := [m], settings := cfg } tail =
      { gatewayNamespace := ns, parentGw := gw,
        listeners := [{ m with httpChain := some { parents := c.parents ++ tail.map (fun i => mkHttpParent i.listener i.routes) } }],
        settings := cfg } := by
  intro tail
  induction tail with
  | nil =>
    intro ns gw cfg m c hport hchain _
    simp only [mergeFold, List.foldl_nil, List.map_nil, List.append_nil]
    have hc : ({ parents := c.parents } : httpFilterChain) = c := rfl
    rw [hc, ← hchain]
  | cons i tail ih =>
    intro ns gw cfg m c hport hchain hall
    rcases hall i (List.mem_cons_self i tail) with ⟨hproto, hiport⟩
    have hall2 : ∀ j ∈ tail, j.listener.protocol = "HTTP" ∧ j.listener.port = p :=
      fun j hj => hall j (List.mem_cons_of_mem i hj)
    have hcons : mergeFold
        { gatewayNamespace := ns, parentGw := gw, listeners := [m], settings := cfg }
        (i :: tail) =
        mergeFold (MergedListeners.AppendListener
          { gatewayNamespace := ns, parentGw := gw, listeners := [m], settings := cfg }
          i.listener i.routes i.reporter) tail := rfl
    rw [hcons, AppendListener_http_single ns gw cfg m c i p hport hchain hproto hiport]
    rw [ih ns gw cfg
      { m with httpChain := some { parents := c.parents ++ [mkHttpParent i.listener i.routes] } }
      { parents := c.parents ++ [mkHttpParent i.listener i.routes] } hport rfl hall2]
    simp [List.append_assoc]

theorem mergeFold_http_all (p : Nat) (i0 : AppendInput) (rest : List AppendInput)
    (ns gw : String) (cfg : ListenerTranslatorConfig)
    (hall : ∀ i ∈ i0 :: rest, i.listener.protocol = "HTTP" ∧ i.listener.port = p) :
    foldAppend ns gw cfg (i0 :: rest) =
      { gatewayNamespace := ns, parentGw := gw,
        listeners := [{ name := GenerateListenerName i0.listener, gatewayNamespace := ns,
                        port := i0.listener.port,
                        httpChain := some { parents := (i0 :: rest).map (fun i => mkHttpParent i.listener i.routes) },
                        httpsFilterChains := [], tcpFilterChains := [],
                        listenerReporter := i0.reporter, listener := i0.listener,
                        gateway := gw, settings := cfg }],
        settings := cfg } := by
  rcases hall i0 (List.mem_cons_self i0 rest) with ⟨hproto0, hport0⟩
  have hall2 : ∀ j ∈ rest, j.listener.protocol = "HTTP" ∧ j.listener.port = p :=
    fun j hj => hall j (List.mem_cons_of_mem i0 hj)
  have hcons : foldAppend ns gw cfg (i0 :: rest) =
      mergeFold (MergedListeners.AppendListener
        { gatewayNamespace := ns, parentGw := gw, listeners := [], settings := cfg }
        i0.listener i0.routes i0.reporter) rest := rfl
  rw [hcons, AppendListener_http_first ns gw cfg i0 hproto0]
  rw [mergeFold_http p rest ns gw cfg _ _ hport0 rfl hall2]
  simp

theorem AppendListener_https_single (ns gw : String) (cfg : ListenerTranslatorConfig)
    (m : MergedListener) (i : AppendInput) (p : Nat)
    (hport : m.port = p) (hproto : i.listener.protocol = "HTTPS") (hiport : i.listener.port = p) :
    MergedListeners.AppendListener
      { gatewayNamespace := ns, parentGw := gw, listeners := [m], settings := cfg }
      i.listener i.routes i.reporter =
    { gatewayNamespace := ns, parentGw := gw,
      listeners := [{ m with httpsFilterChains := m.httpsFilterChains ++ [mkHttpsChain i.listener i.routes] }],
      settings := cfg } := by
  simp [MergedListeners.AppendListener, MergedListeners.appendHttpsListener, appendChainGo,
    httpsUpd, getListenerPortNumber, hproto, hiport, hport]

theorem AppendListener_https_first (ns gw : String) (cfg : ListenerTranslatorConfig)
    (i : AppendInput) (hproto : i.listener.protocol = "HTTPS") :
    MergedListeners.AppendListener
      { gatewayNamespace := ns, parentGw := gw, listeners := [], settings := cfg }
      i.listener i.routes i.reporter =
    { gatewayNamespace := ns, parentGw := gw,
      listeners := [{ name := GenerateListenerName i.listener, gatewayNamespace := ns,
                      port := i.listener.port, httpChain := none,
                      httpsFilterChains := [mkHttpsChain i.listener i.routes],
                      tcpFilterChains := [],
                      listenerReporter := i.reporter, listener := i.listener,
                      gateway := gw, settings := cfg }],
      settings := cfg } := by
  simp [MergedListeners.AppendListener, MergedListeners.appendHttpsListener, appendChainGo,
    getListenerPortNumber, hproto]

theorem mergeFold_https (p : Nat) :
    ∀ (tail : List AppendInput) (ns gw : String) (cfg : ListenerTranslatorConfig)
      (m : MergedListener),
    m.port = p →
    (∀ i ∈ tail, i.listener.protocol = "HTTPS" ∧ i.listener.port = p) →
    mergeFold { gatewayNamespace := ns, parentGw := gw, listeners := [m], settings := cfg } tail =
      { gatewayNamespace := ns, parentGw := gw,
        listeners := [{ m with httpsFilterChains := m.httpsFilterChains ++ tail.map (fun i => mkHttpsChain i.listener i.routes) }],
        settings := cfg } := by
  intro tail
  induction tail with
  | nil =>
    intro ns gw cfg m hport _
    simp only [mergeFold, List.foldl_nil, List.map_nil, List.append_nil]
  | cons i tail ih =>
    intro ns gw cfg m hport hall
    rcases hall i (List.mem_cons_self i tail) with ⟨hproto, hiport⟩
    have hall2 : ∀ j ∈ tail, j.listener.protocol = "HTTPS" ∧ j.listener.port = p :=
      fun j hj => hall j (List.mem_cons_of_mem i hj)
    have hcons : mergeFold
        { gatewayNamespace := ns, parentGw := gw, listeners := [m], settings := cfg }
        (i :: tail) =
        mergeFold (MergedListeners.AppendListener
          { gatewayNamespace := ns, parentGw := gw, listeners := [m], settings := cfg }
          i.listener i.routes i.reporter) tail := rfl
    rw [hcons, AppendListener_https_single ns gw cfg m i p hport hproto hiport]
    rw [ih ns gw cfg
      { m with httpsFilterChains := m.httpsFilterChains ++ [mkHttpsChain i.listener i.routes] }
      hport hall2]
    simp [List.append_assoc]

theorem mergeFold_https_all (p : Nat) (i0 : AppendInput) (rest : List AppendInput)
    (ns gw : String) (cfg : ListenerTranslatorConfig)
    (hall : ∀ i ∈ i0 :: rest, i.listener.protocol = "HTTPS" ∧ i.listener.port = p) :
    foldAppend ns gw cfg (i0 :: rest) =
      { gatewayNamespace := ns, parentGw := gw,
        listeners := [{ name := GenerateListenerName i0.listener, gatewayNamespace := ns,
                        port := i0.listener.port, httpChain := none,
                        httpsFilterChains := (i0 :: rest).map (fun i => mkHttpsChain i.listener i.routes),
                        tcpFilterChains := [],
                        listenerReporter := i0.reporter, listener := i0.listener,
                        gateway := gw, settings := cfg }],
        settings := cfg } := by
  rcases hall i0 (List.mem_cons_self i0 rest) with ⟨hproto0, hport0⟩
  have hall2 : ∀ j ∈ rest, j.listener.protocol = "HTTPS" ∧ j.listener.port = p :=
    fun j hj => hall j (List.mem_cons_of_mem i0 hj)
  have hcons : foldAppend ns gw cfg (i0 :: rest) =
      mergeFold (MergedListeners.AppendListener
        { gatewayNamespace := ns, parentGw := gw, listeners := [], settings := cfg }
        i0.listener i0.routes i0.reporter) rest := rfl
  rw [hcons, AppendListener_https_first ns gw cfg i0 hproto0]
  rw [mergeFold_https p rest ns gw cfg _ hport0 hall2]
  simp

/-! ### HTTPS translation helpers -/

theorem translateHttps_ok (mfc : httpsFilterChain) (q : Collaborators)
    (pn ns rep : String) (b : Option TlsBundle)
    (hssl : translateSslConfig q ns (some mfc.tls) = Except.ok b) :
    mfc.translateHttpsFilterChain q pn ns rep =
      (some { filterChainName := pn, sniDomains := sniList mfc.sniDomain,
              tlsTermination := b, attachedPolicies := mfc.attachedPolicies,
              vhosts := httpsVhostsWith pn (buildRoutesPerHost [] mfc.routesWithHosts) },
       []) := by
  simp only [httpsFilterChain.translateHttpsFilterChain, hssl]

theorem translateHttps_err (mfc : httpsFilterChain) (q : Collaborators)
    (pn ns rep : String) (e : GoError)
    (hssl : translateSslConfig q ns (some mfc.tls) = Except.error e) :
    mfc.translateHttpsFilterChain q pn ns rep =
      (none,
       [Event.listenerCond rep
          { condType := CondType.ResolvedRefs, statusTrue := false,
            reason := sslFailReason e, message := sslFailMessage e },
        Event.listenerCond rep
          { condType := CondType.Programmed, statusTrue := false,
            reason := CondReason.Invalid, message := sslFailMessage e }]) := by
  simp only [httpsFilterChain.translateHttpsFilterChain, hssl]

theorem translateHttps_isSome (mfc : httpsFilterChain) (q : Collaborators)
    (pn ns rep : String) :
    ((mfc.translateHttpsFilterChain q pn ns rep).1).isSome =
      (translateSslConfig q ns (some mfc.tls)).toOption.isSome := by
  cases hssl : translateSslConfig q ns (some mfc.tls) with
  | error e => rw [translateHttps_err mfc q pn ns rep e hssl]; rfl
  | ok b => rw [translateHttps_ok mfc q pn ns rep b hssl]; rfl

/-! ### Shared helper for the TCP translation -/

theorem translateTcp_routes (tc : tcpFilterChain) (pn : String) (r0 : RouteInfo)
    (rest : List RouteInfo) (h : tc.parents.routesWithHosts = r0 :: rest) :
    tc.translateTcpFilterChain pn =
      match (minFirst r0 rest).object with
      | RouteObj.tcpRoute d => tcpRouteBranch d pn []
      | RouteObj.tlsRoute d => tcpRouteBranch d pn (sniList tc.sniDomain)
      | RouteObj.http _ _ _ => (none, []) := by
  unfold tcpFilterChain.translateTcpFilterChain
  rw [h]

/-! ### Claim C3 -/

/-- Vhost-name facts of the translated HTTP filter chain, for an arbitrary
iteration order of the host buckets. -/
theorem translateWith_vhost_names (parents : List HttpFCParent) (parentName : String)
    (entries : Buckets) :
    ((translateHttpFilterChainWith parents parentName entries).vhosts.map
        VirtualHost.Name).Perm
      (firstDedup (entries.map (fun e => makeVhostName parentName e.1)) []) ∧
    List.Pairwise (fun a b : String => strLeB a b = true)
      ((translateHttpFilterChainWith parents parentName entries).vhosts.map VirtualHost.Name) ∧
    ((translateHttpFilterChainWith parents parentName entries).vhosts.map
      VirtualHost.Name).Nodup := by
  have hvh : (translateHttpFilterChainWith parents parentName entries).vhosts =
      vhSort (dedupByName (entries.map (mkVhostHttp parents parentName)) []) := rfl
  have hnames : (dedupByName (entries.map (mkVhostHttp parents parentName)) []).map
        VirtualHost.Name =
      firstDedup ((entries.map (mkVhostHttp parents parentName)).map VirtualHost.Name) [] :=
    dedupByName_names _ _
  have hmapmap : (entries.map (mkVhostHttp parents parentName)).map VirtualHost.Name =
      entries.map (fun e => makeVhostName parentName e.1) := by
    rw [List.map_map]; rfl
  have hperm : ((vhSort (dedupByName (entries.map (mkVhostHttp parents parentName)) [])).map
        VirtualHost.Name).Perm
      ((dedupByName (entries.map (mkVhostHttp parents parentName)) []).map VirtualHost.Name) :=
    (vhSort_perm _).map VirtualHost.Name
  have hnodup2 : ((dedupByName (entries.map (mkVhostHttp parents parentName)) []).map
      VirtualHost.Name).Nodup := by
    rw [hnames]
    exact (firstDedup_nodup _ _).1
  refine ⟨?_, ?_, ?_⟩
  · rw [hvh]
    rw [hnames, hmapmap] at hperm
    exact hperm
  · rw [hvh]
    exact List.pairwise_map.mpr (vhSort_sorted _)
  · rw [hvh]
    exact hperm.symm.nodup hnodup2

/-- Claim C3 (amended): for a fixed input, the translated HTTP filter chain and
the HTTPS vhost list are independent of the iteration order of the `routesByHost`
map, provided the sanitized vhost names of the distinct host buckets are
pairwise distinct; under a sanitized-name collision the surviving vhost depends
on the iteration order (see the counterexample). -/
theorem c3_translation_deterministic (parents : List HttpFCParent) (parentName : String)
    (e1 e2 : Buckets) (hp : e1.Perm e2)
    (hn : (e1.map (fun e => makeVhostName parentName e.1)).Nodup) :
    translateHttpFilterChainWith parents parentName e1 =
      translateHttpFilterChainWith parents parentName e2 ∧
    httpsVhostsWith parentName e1 = httpsVhostsWith parentName e2 := by
  have hn1 : (e1.map (fun e => (mkVhostHttp parents parentName e).Name)).Nodup := hn
  have hn2 : (e1.map (fun e => (mkVhostHttps parentName e).Name)).Nodup := hn
  constructor
  · unfold translateHttpFilterChainWith
    rw [vhPipeline_perm (mkVhostHttp parents parentName) e1 e2 hp hn1]
  · unfold httpsVhostsWith
    rw [vhPipeline_perm (mkVhostHttps parentName) e1 e2 hp hn2]

/-- Claim C3 counterexample: the hostnames `a:b` and `a_b` of one bound route
sanitize to the same vhost name; the two iteration orders of the same host
buckets produce different translated chains (the surviving vhost's hostname
differs), so the output is not independent of map iteration order. -/
theorem c3_map_order_counterexample :
    canonicalBuckets c3Parents = c3EntriesA ∧
    c3EntriesB.Perm c3EntriesA ∧
    translateHttpFilterChainWith c3Parents "listener~8080" c3EntriesA ≠
      translateHttpFilterChainWith c3Parents "listener~8080" c3EntriesB := by
  refine ⟨by decide, by decide, by decide⟩

/-- Claim C3 witness: the amended determinism theorem applied to collision-free
buckets, in both orders. -/
theorem c3_witness :
    translateHttpFilterChainWith c3Parents "pn" [("a.com", [1]), ("b.com", [2])] =
      translateHttpFilterChainWith c3Parents "pn" [("b.com", [2]), ("a.com", [1])] :=
  (c3_translation_deterministic c3Parents "pn"
    [("a.com", [1]), ("b.com", [2])] [("b.com", [2]), ("a.com", [1])]
    (by decide) (by decide)).1

/-! ### Claim C4 -/

/-- Claim C4: in `translateHttpFilterChain`, every virtual host whose hostname
is `host` adopts the attached policies and parent listener reference of the
parent whose hostname contains `host` with the greatest hostname length
(nil hostname matching everything with length 0), earliest parent winning
ties: the winning parent is characterized as `pstar` with every earlier
matching parent strictly shorter and every later matching parent no longer. -/
theorem c4_policy_attribution (host : String) (pre post : List HttpFCParent)
    (pstar : HttpFCParent)
    (hmatch : isHostContained host pstar.gatewayListener.hostname = true)
    (hpre : ∀ q ∈ pre, isHostContained host q.gatewayListener.hostname = true →
      parentHostnameLen q < parentHostnameLen pstar)
    (hpost : ∀ q ∈ post, isHostContained host q.gatewayListener.hostname = true →
      parentHostnameLen q ≤ parentHostnameLen pstar) :
    chooseAttribution host (pre ++ pstar :: post) =
      (pstar.attachedPolicies, pstar.gatewayListener) ∧
    ∀ (parentName : String) (entries : Buckets) (v : VirtualHost),
      v ∈ (translateHttpFilterChainWith (pre ++ pstar :: post) parentName entries).vhosts →
      v.Hostname = host →
      v.AttachedPolicies = pstar.attachedPolicies ∧ v.ParentRef = pstar.gatewayListener := by
  have hmain := chooseAttribution_spec host pre post pstar hmatch hpre hpost
  refine ⟨hmain, ?_⟩
  intro parentName entries v hv hhost
  have hv2 : v ∈ dedupByName (entries.map (mkVhostHttp (pre ++ pstar :: post) parentName)) [] :=
    (vhSort_perm _).subset hv
  have hv3 := dedupByName_subset _ _ v hv2
  rcases List.mem_map.mp hv3 with ⟨e, he, heq⟩
  have hhost2 : e.1 = host := by rw [← heq] at hhost; exact hhost
  constructor
  · rw [← heq]
    show (chooseAttribution e.1 (pre ++ pstar :: post)).1 = pstar.attachedPolicies
    rw [hhost2, hmain]
  · rw [← heq]
    show (chooseAttribution e.1 (pre ++ pstar :: post)).2 = pstar.gatewayListener
    rw [hhost2, hmain]

/-- Claim C4 witness: host `api.example.com` against candidate listener
hostnames `*.example.com` and `api.example.com` adopts the exact match's
policies. -/
theorem c4_policy_attribution_witness :
    chooseAttribution "api.example.com" ([c4Wild] ++ c4Exact :: []) =
      (c4Exact.attachedPolicies, c4Exact.gatewayListener) :=
  (c4_policy_attribution "api.example.com" [c4Wild] [] c4Exact (by decide)
    (by decide) (by decide)).1

/-! ### Claim C7 -/

/-- Claim C7: `translateTcpFilterChain` produces nothing when zero routes are
bound, and with several bound routes the unique earliest-created route is the
one translated: the chain translates exactly as if that route were the only
one bound, so non-selected routes contribute nothing, regardless of input
order. -/
theorem c7_tcp_earliest_selected (tc : tcpFilterChain) (pn : String) :
    (tc.parents.routesWithHosts = [] → tc.translateTcpFilterChain pn = (none, [])) ∧
    (∀ r ∈ tc.parents.routesWithHosts,
      (∀ r2 ∈ tc.parents.routesWithHosts, r2 ≠ r →
        r.object.creationTime < r2.object.creationTime) →
      tc.translateTcpFilterChain pn =
        tcpFilterChain.translateTcpFilterChain
          { tc with parents := { tc.parents with routesWithHosts := [r] } } pn) := by
  constructor
  · intro hnil
    unfold tcpFilterChain.translateTcpFilterChain
    rw [hnil]
  · intro r hr huniq
    cases hroutes : tc.parents.routesWithHosts with
    | nil =>
      rw [hroutes] at hr
      exact absurd hr (List.not_mem_nil r)
    | cons r0 rest =>
      rw [hroutes] at hr huniq
      have hmin : minFirst r0 rest = r := minFirst_unique rest r0 r hr huniq
      rw [translateTcp_routes tc pn r0 rest hroutes,
        translateTcp_routes
          { tc with parents := { tc.parents with routesWithHosts := [r] } } pn r [] rfl,
        hmin]
      simp only [minFirst]

/-- Claim C7 witness: three routes with creation times 2, 3, 1 in scrambled
input order translate exactly like the single earliest route (time 1); an empty
route list yields nothing. -/
theorem c7_witness :
    c7tcEmpty.translateTcpFilterChain "listener~9000" = (none, []) ∧
    c7tc.translateTcpFilterChain "listener~9000" =
      c7tcSingle.translateTcpFilterChain "listener~9000" := by
  constructor
  · exact (c7_tcp_earliest_selected c7tcEmpty "listener~9000").1 rfl
  · exact (c7_tcp_earliest_selected c7tc "listener~9000").2 (c7r 1) (by decide) (by decide)

/-! ### Claim C8 -/

/-- Claim C8 (code bug): a TCPRoute with two rules yields no TcpIR, but the Go
code returns before the reporter loop, so the computed
`Accepted=False/UnsupportedValue` condition is never set on any parent-ref
reporter: the translation emits no event at all at this input. -/
theorem c8_two_rules_no_condition :
    c8tc.translateTcpFilterChain "listener~9000" = (none, []) := by decide

/-! ### Claim C9 -/

/-- Claim C9: for an accepted single-rule TCP or TLS route, the output backend
list is exactly the declared backend list (erroneous or missing backends are
still included), a backend error event is emitted per parent ref for each
broken backend, and no TcpIR is emitted exactly when the backend list is
empty. -/
theorem c9_backend_inclusion (tc : tcpFilterChain) (pn : String) (ri : RouteInfo)
    (d : TcpRouteData)
    (hroutes : tc.parents.routesWithHosts = [ri])
    (hobj : ri.object = RouteObj.tcpRoute d ∨ ri.object = RouteObj.tlsRoute d)
    (hrules : d.rulesCount = 1) :
    ((tc.translateTcpFilterChain pn).1 = none ↔ d.backends = []) ∧
    (∀ ir, (tc.translateTcpFilterChain pn).1 = some ir → ir.backendRefs = d.backends) ∧
    (∀ b ∈ d.backends, (b.err ≠ none ∨ b.hasObject = false) →
      ∀ pr ∈ d.parentRefs,
        Event.backendErr d.routeKey pr (backendErrMsg b) ∈ (tc.translateTcpFilterChain pn).2) := by
  have hsni : ∃ sni, tc.translateTcpFilterChain pn = tcpRouteBranch d pn sni := by
    rcases hobj with h | h
    · refine ⟨[], ?_⟩
      rw [translateTcp_routes tc pn ri [] hroutes]
      simp only [minFirst, h]
    · refine ⟨sniList tc.sniDomain, ?_⟩
      rw [translateTcp_routes tc pn ri [] hroutes]
      simp only [minFirst, h]
  rcases hsni with ⟨sni, htc⟩
  rw [htc]
  unfold tcpRouteBranch
  rw [if_pos hrules]
  refine ⟨?_, ?_, ?_⟩
  · by_cases hb : d.backends = []
    · simp [hb]
    · simp [hb]
  · intro ir hir
    by_cases hb : d.backends = []
    · simp [hb] at hir
    · simp only [if_neg hb] at hir
      rw [← Option.some.inj hir]
  · intro b hb hbad pr hpr
    show Event.backendErr d.routeKey pr (backendErrMsg b) ∈
      d.parentRefs.map (fun pr2 => Event.routeCond d.routeKey pr2
        { condType := CondType.Accepted, statusTrue := true,
          reason := CondReason.ReasonAccepted, message := "" }) ++
      (d.backends.map (fun b2 =>
        if b2.err ≠ none ∨ b2.hasObject = false then
          d.parentRefs.map (fun pr2 => Event.backendErr d.routeKey pr2 (backendErrMsg b2))
        else [])).flatten
    apply List.mem_append.mpr
    right
    apply mem_flatten_map _ d.backends b _ hb
    rw [if_pos hbad]
    exact List.mem_map.mpr ⟨pr, hpr, rfl⟩

/-- Claim C9 witness: a route with one broken and one healthy backend yields a
TcpIR (so not none), and the broken backend's error event is emitted for the
second parent ref. -/
theorem c9_witness :
    ¬ ((c9tc.translateTcpFilterChain "listener~9000").1 = none) ∧
    Event.backendErr c9d.routeKey "p2"
        (backendErrMsg { clusterName := "c1", err := some "boom", hasObject := true }) ∈
      (c9tc.translateTcpFilterChain "listener~9000").2 := by
  constructor
  · intro hnone
    have h := (c9_backend_inclusion c9tc "listener~9000" c9ri c9d rfl (Or.inl rfl) rfl).1.mp hnone
    exact absurd h (by decide)
  · exact (c9_backend_inclusion c9tc "listener~9000" c9ri c9d rfl (Or.inl rfl) rfl).2.2
      { clusterName := "c1", err := some "boom", hasObject := true } (by decide) (by decide)
      "p2" (by decide)

/-! ### Unfolding lemmas for TranslateListener -/

theorem translateListener_httpFilterChain (m : MergedListener) (q : Collaborators) :
    (m.TranslateListener q).1.httpFilterChain =
      (match m.httpChain with
       | some fc => [fc.translateHttpFilterChain m.name]
       | none => []) ++
      (m.httpsFilterChains.map (fun mfc =>
        mfc.translateHttpsFilterChain q mfc.gatewayListenerName m.gatewayNamespace
          m.listenerReporter)).filterMap Prod.fst := rfl

theorem translateListener_events (m : MergedListener) (q : Collaborators) :
    (m.TranslateListener q).2 =
      (((m.httpsFilterChains.map (fun mfc =>
          mfc.translateHttpsFilterChain q mfc.gatewayListenerName m.gatewayNamespace
            m.listenerReporter)).map Prod.snd).flatten ++
       ((m.tcpFilterChains.map (fun tfc => tfc.translateTcpFilterChain m.name)).map
          Prod.snd).flatten) ++
      (if 0 < m.tcpFilterChains.length ∧
          ((m.tcpFilterChains.map (fun tfc =>
            tfc.translateTcpFilterChain m.name)).filterMap Prod.fst).length = 0 then
        m.tcpFilterChains.map (fun tfc =>
          Event.listenerCond tfc.listenerReporter tcpEscalationCondition)
      else []) := rfl

theorem countP_congr2 {α : Type} (p q2 : α → Bool) :
    ∀ l : List α, (∀ a ∈ l, p a = q2 a) → l.countP p = l.countP q2 := by
  intro l
  induction l with
  | nil => intro _; rfl
  | cons x xs ih =>
    intro h
    simp only [List.countP_cons, h x (List.mem_cons_self x xs),
      ih (fun a ha => h a (List.mem_cons_of_mem x ha))]

theorem translateHttps_list_ok (q : Collaborators) (ns rep : String) :
    ∀ chains : List httpsFilterChain,
    (∀ c ∈ chains, (translateSslConfig q ns (some c.tls)).toOption.isSome = true) →
    ((chains.map (fun mfc =>
        mfc.translateHttpsFilterChain q mfc.gatewayListenerName ns rep)).filterMap
      Prod.fst).map HttpFilterChainIR.sniDomains =
      chains.map (fun c => sniList c.sniDomain) := by
  intro chains
  induction chains with
  | nil => intro _; rfl
  | cons c cs ih =>
    intro hok
    have hc := hok c (List.mem_cons_self c cs)
    cases hssl : translateSslConfig q ns (some c.tls) with
    | error e =>
      rw [hssl] at hc
      exact absurd hc (by simp [Except.toOption])
    | ok b =>
      simp only [List.map_cons, List.filterMap_cons,
        translateHttps_ok c q c.gatewayListenerName ns rep b hssl]
      rw [ih (fun c2 hc2 => hok c2 (List.mem_cons_of_mem c hc2))]

/-- SNI list of the translated chains of a merged listener whose HTTPS chains
all resolve TLS successfully. -/
theorem translateListener_https_sni (m : MergedListener) (q : Collaborators)
    (hhttp : m.httpChain = none)
    (hok : ∀ c ∈ m.httpsFilterChains,
      (translateSslConfig q m.gatewayNamespace (some c.tls)).toOption.isSome = true) :
    (m.TranslateListener q).1.httpFilterChain.map HttpFilterChainIR.sniDomains =
      m.httpsFilterChains.map (fun c => sniList c.sniDomain) := by
  rw [translateListener_httpFilterChain, hhttp, List.nil_append]
  exact translateHttps_list_ok q m.gatewayNamespace m.listenerReporter m.httpsFilterChains hok

/-! ### Claim C1 -/

/-- Claim C1: appending any nonempty set of plaintext HTTP listeners sharing
one port via `AppendListener` yields a single merged listener holding exactly
one HTTP filter chain whose parents are the listeners in append order (later
listeners are appended to the existing chain), and for any iteration order of
the host buckets the translated chain has exactly one virtual host per
sanitized-name-deduplicated hostname bucket, with the vhost name list sorted
ascending. -/
theorem c1_http_merge (p : Nat) (i0 : AppendInput) (rest : List AppendInput)
    (ns gw : String) (cfg : ListenerTranslatorConfig)
    (hall : ∀ i ∈ i0 :: rest, i.listener.protocol = "HTTP" ∧ i.listener.port = p) :
    ∃ m fc, (foldAppend ns gw cfg (i0 :: rest)).listeners = [m] ∧
      m.httpChain = some fc ∧
      fc.parents = (i0 :: rest).map (fun i => mkHttpParent i.listener i.routes) ∧
      m.httpsFilterChains = [] ∧ m.tcpFilterChains = [] ∧
      ∀ entries : Buckets, entries.Perm (canonicalBuckets fc.parents) →
        ((translateHttpFilterChainWith fc.parents m.name entries).vhosts.map
            VirtualHost.Name).Perm
          (firstDedup (entries.map (fun e => makeVhostName m.name e.1)) []) ∧
        List.Pairwise (fun a b : String => strLeB a b = true)
          ((translateHttpFilterChainWith fc.parents m.name entries).vhosts.map
            VirtualHost.Name) ∧
        ((translateHttpFilterChainWith fc.parents m.name entries).vhosts.map
          VirtualHost.Name).Nodup := by
  rw [mergeFold_http_all p i0 rest ns gw cfg hall]
  refine ⟨_, _, rfl, rfl, rfl, rfl, rfl, ?_⟩
  intro entries _
  exact translateWith_vhost_names _ _ entries

/-- Claim C1 witness: two plaintext listeners on port 80. -/
theorem c1_witness :
    ∃ m fc,
      (foldAppend "nsp" "gwA" { listenerBindIpv6 := false } [c1i1, c1i2]).listeners = [m] ∧
      m.httpChain = some fc ∧
      fc.parents = ([c1i1, c1i2] : List AppendInput).map
        (fun i => mkHttpParent i.listener i.routes) ∧
      m.httpsFilterChains = [] ∧ m.tcpFilterChains = [] ∧
      ∀ entries : Buckets, entries.Perm (canonicalBuckets fc.parents) →
        ((translateHttpFilterChainWith fc.parents m.name entries).vhosts.map
            VirtualHost.Name).Perm
          (firstDedup (entries.map (fun e => makeVhostName m.name e.1)) []) ∧
        List.Pairwise (fun a b : String => strLeB a b = true)
          ((translateHttpFilterChainWith fc.parents m.name entries).vhosts.map
            VirtualHost.Name) ∧
        ((translateHttpFilterChainWith fc.parents m.name entries).vhosts.map
          VirtualHost.Name).Nodup :=
  c1_http_merge 80 c1i1 [c1i2] "nsp" "gwA" { listenerBindIpv6 := false } (by decide)

/-! ### Claim C2 -/

/-- Claim C2: N HTTPS listeners appended on the same port accumulate exactly N
entries in `httpsFilterChains` (one per Gateway-API listener, never merged),
and when TLS resolution succeeds for all of them the translated output has
exactly N HTTPS filter chains whose SNI matchers are, in order, each
listener's own hostname (single SNI domain, or unconditional when absent). -/
theorem c2_https_no_merge (p : Nat) (i0 : AppendInput) (rest : List AppendInput)
    (ns gw : String) (cfg : ListenerTranslatorConfig) (q : Collaborators)
    (hall : ∀ i ∈ i0 :: rest, i.listener.protocol = "HTTPS" ∧ i.listener.port = p) :
    ∃ m, (foldAppend ns gw cfg (i0 :: rest)).listeners = [m] ∧
      m.httpsFilterChains = (i0 :: rest).map (fun i => mkHttpsChain i.listener i.routes) ∧
      m.httpsFilterChains.length = (i0 :: rest).length ∧
      m.httpChain = none ∧ m.tcpFilterChains = [] ∧ m.gatewayNamespace = ns ∧
      ((∀ c ∈ m.httpsFilterChains,
          (translateSslConfig q m.gatewayNamespace (some c.tls)).toOption.isSome = true) →
        (m.TranslateListener q).1.httpFilterChain.map HttpFilterChainIR.sniDomains =
          (i0 :: rest).map (fun i => sniList i.listener.hostname)) := by
  rw [mergeFold_https_all p i0 rest ns gw cfg hall]
  refine ⟨_, rfl, rfl, by simp, rfl, rfl, rfl, ?_⟩
  intro hok
  rw [translateListener_https_sni _ q rfl hok]
  show ((i0 :: rest).map (fun i => mkHttpsChain i.listener i.routes)).map
      (fun c => sniList c.sniDomain) =
    (i0 :: rest).map (fun i => sniList i.listener.hostname)
  rw [List.map_map]
  rfl

/-- Claim C2 witness: two HTTPS listeners on port 443 (TLS absent, so
resolution trivially succeeds as a soft no-op); the output carries one chain
per listener with its own SNI matcher. -/
theorem c2_witness :
    ((foldAppend "nsp" "gwA" { listenerBindIpv6 := false } [c2i1, c2i2]).listeners.map
      (fun m => (m.TranslateListener cqTrivial).1.httpFilterChain.map
        HttpFilterChainIR.sniDomains)) = [[["a.com"], []]] := by
  obtain ⟨m, hl, hchains, _, _, _, hns, himp⟩ :=
    c2_https_no_merge 443 c2i1 [c2i2] "nsp" "gwA" { listenerBindIpv6 := false } cqTrivial
      (by decide)
  have hok : ∀ c ∈ m.httpsFilterChains,
      (translateSslConfig cqTrivial m.gatewayNamespace (some c.tls)).toOption.isSome = true := by
    rw [hchains, hns]
    decide
  rw [hl, List.map_cons, List.map_nil, himp hok]
  rfl

/-! ### Claim C5 -/

/-- Claim C5 (amended): a TLS resolution failure of an HTTPS chain sets both a
`ResolvedRefs=False` condition (reason `RefNotPermitted` for a missing
ReferenceGrant, otherwise `InvalidCertificateRef`; message the validator's
text for a malformed secret, or the `Secret ns/name not found.` template for a
missing secret) and a `Programmed=False` condition — but on the merged
listener's reporter (the reporter of the first listener appended on the port),
not necessarily the failing listener's own reporter — and the failed chain is
excluded from the output while the remaining HTTPS chains on the port are
still translated. -/
theorem c5_https_tls_failure (m : MergedListener) (q : Collaborators)
    (mfc : httpsFilterChain) (e : GoError)
    (hmem : mfc ∈ m.httpsFilterChains)
    (herr : translateSslConfig q m.gatewayNamespace (some mfc.tls) = Except.error e) :
    Event.listenerCond m.listenerReporter
      { condType := CondType.ResolvedRefs, statusTrue := false,
        reason := sslFailReason e, message := sslFailMessage e } ∈
      (m.TranslateListener q).2 ∧
    Event.listenerCond m.listenerReporter
      { condType := CondType.Programmed, statusTrue := false,
        reason := CondReason.Invalid, message := sslFailMessage e } ∈
      (m.TranslateListener q).2 ∧
    (m.TranslateListener q).1.httpFilterChain.length =
      (if m.httpChain.isSome then 1 else 0) +
        m.httpsFilterChains.countP
          (fun c => (translateSslConfig q m.gatewayNamespace (some c.tls)).toOption.isSome) ∧
    sslFailReason GoError.missingReferenceGrant = CondReason.RefNotPermitted ∧
    (∀ msg, sslFailReason (GoError.invalidTlsSecret msg) = CondReason.InvalidCertificateRef ∧
      sslFailMessage (GoError.invalidTlsSecret msg) = msg) ∧
    (∀ a b, sslFailReason (GoError.notFound a b) = CondReason.InvalidCertificateRef ∧
      sslFailMessage (GoError.notFound a b) = "Secret " ++ a ++ "/" ++ b ++ " not found.") := by
  have hGmfc := translateHttps_err mfc q mfc.gatewayListenerName m.gatewayNamespace
    m.listenerReporter e herr
  refine ⟨?_, ?_, ?_, rfl, fun msg => ⟨rfl, rfl⟩, fun a b => ⟨rfl, rfl⟩⟩
  · rw [translateListener_events]
    apply List.mem_append.mpr
    left
    apply List.mem_append.mpr
    left
    rw [List.map_map]
    refine mem_flatten_map _ m.httpsFilterChains mfc _ hmem ?_
    show _ ∈ (mfc.translateHttpsFilterChain q mfc.gatewayListenerName m.gatewayNamespace
      m.listenerReporter).2
    rw [hGmfc]
    exact List.mem_cons_self _ _
  · rw [translateListener_events]
    apply List.mem_append.mpr
    left
    apply List.mem_append.mpr
    left
    rw [List.map_map]
    refine mem_flatten_map _ m.httpsFilterChains mfc _ hmem ?_
    show _ ∈ (mfc.translateHttpsFilterChain q mfc.gatewayListenerName m.gatewayNamespace
      m.listenerReporter).2
    rw [hGmfc]
    exact List.mem_cons_of_mem _ (List.mem_cons_self _ _)
  · rw [translateListener_httpFilterChain, List.length_append]
    have h1 : (match m.httpChain with
        | some fc => [fc.translateHttpFilterChain m.name]
        | none => ([] : List HttpFilterChainIR)).length =
        if m.httpChain.isSome then 1 else 0 := by
      cases m.httpChain with
      | some fc => rfl
      | none => rfl
    have h2 : ((m.httpsFilterChains.map (fun mfc2 =>
        mfc2.translateHttpsFilterChain q mfc2.gatewayListenerName m.gatewayNamespace
          m.listenerReporter)).filterMap Prod.fst).length =
        m.httpsFilterChains.countP
          (fun c => (translateSslConfig q m.gatewayNamespace (some c.tls)).toOption.isSome) := by
      rw [filterMap_fst_len]
      exact countP_congr2 _ _ _ (fun c _ =>
        translateHttps_isSome c q c.gatewayListenerName m.gatewayNamespace m.listenerReporter)
    rw [h1, h2]

/-- Claim C5 counterexample: two HTTPS listeners share port 443; listener `hB`
(reporter `rB`) has an unresolvable secret, yet the entire event list of the
translation targets reporter `rA` (the reporter of the first listener on the
port, stored in the merged listener); nothing is ever set on `rB`, contradicting
the claim that the conditions are set on the failing listener's reporter. -/
theorem c5_counterexample :
    c5LB.reporter = "rB" ∧
    (c5m.TranslateListener c5q).2 =
      [Event.listenerCond "rA"
         { condType := CondType.ResolvedRefs, statusTrue := false,
           reason := CondReason.InvalidCertificateRef,
           message := "Secret nsp/badsecret not found." },
       Event.listenerCond "rA"
         { condType := CondType.Programmed, statusTrue := false,
           reason := CondReason.Invalid,
           message := "Secret nsp/badsecret not found." }] := by
  refine ⟨rfl, by decide⟩

/-- Claim C5 witness: the amended theorem applied to the concrete merged
listener above. -/
theorem c5_witness :
    Event.listenerCond c5m.listenerReporter
      { condType := CondType.ResolvedRefs, statusTrue := false,
        reason := sslFailReason (GoError.notFound "nsp" "badsecret"),
        message := sslFailMessage (GoError.notFound "nsp" "badsecret") } ∈
      (c5m.TranslateListener c5q).2 :=
  (c5_https_tls_failure c5m c5q (mkHttpsChain c5lB [])
    (GoError.notFound "nsp" "badsecret")
    (List.mem_cons_of_mem _ (List.mem_cons_self _ _)) rfl).1

/-! ### Claim C6 -/

/-- Claim C6: on a merged port with TCP/TLS chains (and no HTTPS chains), if
every TCP chain translates to nothing then every chain's reporter receives
`Programmed=False` with reason `Invalid` and the fixed no-backends message;
if at least one chain produces a TcpIR, no reporter receives that condition. -/
theorem c6_all_tcp_failed (m : MergedListener) (q : Collaborators)
    (hne : m.tcpFilterChains ≠ []) (hhttps : m.httpsFilterChains = []) :
    ((∀ tfc ∈ m.tcpFilterChains, (tfc.translateTcpFilterChain m.name).1 = none) →
      ∀ tfc ∈ m.tcpFilterChains,
        Event.listenerCond tfc.listenerReporter tcpEscalationCondition ∈
          (m.TranslateListener q).2) ∧
    ((∃ tfc ∈ m.tcpFilterChains, ((tfc.translateTcpFilterChain m.name).1).isSome = true) →
      ∀ tfc ∈ m.tcpFilterChains,
        Event.listenerCond tfc.listenerReporter tcpEscalationCondition ∉
          (m.TranslateListener q).2) := by
  constructor
  · intro hall tfc htfc
    rw [translateListener_events]
    apply List.mem_append.mpr
    right
    rw [filterMap_fst_all_none _ _ hall]
    rw [if_pos ⟨List.length_pos.mpr hne, rfl⟩]
    exact List.mem_map.mpr ⟨tfc, htfc, rfl⟩
  · intro hsome tfc htfc hmem
    rcases hsome with ⟨tfc0, htfc0, hsome0⟩
    rw [translateListener_events, hhttps] at hmem
    simp only [List.map_nil, List.flatten_nil, List.nil_append] at hmem
    have hcond : ¬ (0 < m.tcpFilterChains.length ∧
        ((m.tcpFilterChains.map (fun tfc2 =>
          tfc2.translateTcpFilterChain m.name)).filterMap Prod.fst).length = 0) := by
      rintro ⟨_, h0⟩
      rw [filterMap_fst_len] at h0
      exact (List.countP_eq_zero.mp h0 tfc0 htfc0) hsome0
    rw [if_neg hcond, List.append_nil] at hmem
    rcases List.mem_flatten.mp hmem with ⟨s, hs, hev⟩
    rcases List.mem_map.mp hs with ⟨pair, hpair, heqs⟩
    rcases List.mem_map.mp hpair with ⟨tfc2, htfc2, heqp⟩
    rw [← heqs, ← heqp] at hev
    exact Bool.noConfusion (translateTcp_events_shape tfc2 m.name _ hev)

/-- Claim C6 witness: with two empty TCP chains the escalation condition
reaches both reporters (shown for `tB`); with one good chain present no
escalation condition is emitted (shown for `tA`). -/
theorem c6_witness :
    Event.listenerCond "tB" tcpEscalationCondition ∈
      (c6mFail.TranslateListener cqTrivial).2 ∧
    Event.listenerCond "tA" tcpEscalationCondition ∉
      (c6mOk.TranslateListener cqTrivial).2 := by
  constructor
  · exact (c6_all_tcp_failed c6mFail cqTrivial (by decide) rfl).1 (by decide) c6tcB (by decide)
  · exact (c6_all_tcp_failed c6mOk cqTrivial (by decide) rfl).2
      ⟨c6tcGood, by decide, by decide⟩ c6tcA (by decide)

/-! ### Claim C10 -/

/-- Claim C10: `translateListeners` emits exactly one `ListenerIR` per merged
listener, unconditionally — even when every filter chain fails or is empty the
entry remains — and each output is named `listener~<port>` with the bind
address chosen by the `ListenerBindIpv6` setting. -/
theorem c10_one_ir_per_merged_listener (q : Collaborators) (ns gw : String)
    (cfg : ListenerTranslatorConfig) (inputs : List AppendInput) :
    ((foldAppend ns gw cfg inputs).translateListeners q).1.length =
      (foldAppend ns gw cfg inputs).listeners.length ∧
    ((foldAppend ns gw cfg inputs).translateListeners q).1.map ListenerIR.Name =
      (foldAppend ns gw cfg inputs).listeners.map MergedListener.name ∧
    ∀ out ∈ ((foldAppend ns gw cfg inputs).translateListeners q).1,
      out.Name = GenerateListenerNameFromPort out.bindPort ∧
      out.bindAddress = (if cfg.listenerBindIpv6 then "::" else "0.0.0.0") := by
  have hinv := mergeFold_invariant inputs
    { gatewayNamespace := ns, parentGw := gw, listeners := [], settings := cfg }
    (fun m hm => absurd hm (List.not_mem_nil m))
  refine ⟨?_, ?_, ?_⟩
  · simp [MergedListeners.translateListeners]
  · simp only [MergedListeners.translateListeners, List.map_map]
    rfl
  · intro out hout
    simp only [MergedListeners.translateListeners] at hout
    rcases List.mem_map.mp hout with ⟨m, hm, heq⟩
    rcases hinv.2 m hm with ⟨h1, h2⟩
    constructor
    · rw [← heq]
      show m.name = GenerateListenerNameFromPort m.port
      exact h1
    · rw [← heq]
      show (if m.settings.listenerBindIpv6 then "::" else "0.0.0.0") =
        (if cfg.listenerBindIpv6 then "::" else "0.0.0.0")
      rw [h2]

/-- Claim C10 witness: one listener input; the single output IR keeps its slot
with the computed name and bind address. -/
theorem c10_witness :
    ((foldAppend "nsp" "gwA" { listenerBindIpv6 := false } [c1i1]).translateListeners
      cqTrivial).1.length = 1 ∧
    ∀ out ∈ ((foldAppend "nsp" "gwA" { listenerBindIpv6 := false } [c1i1]).translateListeners
      cqTrivial).1, out.Name = "listener~80" ∧ out.bindAddress = "0.0.0.0" := by
  have h := c10_one_ir_per_merged_listener cqTrivial "nsp" "gwA"
    { listenerBindIpv6 := false } [c1i1]
  constructor
  · rw [h.1]; decide
  · intro out hout
    rcases h.2.2 out hout with ⟨h1, h2⟩
    have hp : out.bindPort = 80 := by
      have hall : ∀ o ∈ ((foldAppend "nsp" "gwA" { listenerBindIpv6 := false }
          [c1i1]).translateListeners cqTrivial).1, o.bindPort = 80 := by decide
      exact hall out hout
    refine ⟨?_, h2⟩
    rw [h1, hp]
    decide

end KGatewayListener
